import Mathlib

/-!
# Verification of the ai-video-optimizer workflow core

A shallow embedding of the repository's job-queue pipeline:
the SQLite-backed store (`backend/db.py`, `backend/db_operations.py`,
`backend/routes.py`) and the five worker loops (`workers/scanner.py`,
`workers/approver.py`, `workers/prepare.py`, `workers/processor.py`,
`workers/mover.py`).

Modelling conventions:
* A database row of the `videos` table is a `Video`; the database is a `Store`
  holding the rows in rowid (insertion) order.  `SELECT` without `ORDER BY` is
  modelled as returning rows in that order (SQLite scans the table / the
  `idx_status` index in rowid order for the queries at hand).
* `init_db` (backend/db.py) creates only the `videos` table.  The
  `status_history` table, which `db_operations.py` and `routes.py` write to,
  is created nowhere in the repository; the flag `Store.hasHistory` records
  whether that table exists.  An INSERT into the absent table raises
  `sqlite3.OperationalError` ("no such table"), wrapped as `DatabaseError`;
  the enclosing transaction is rolled back.
* The AFTER UPDATE trigger `update_videos_timestamp` stamps
  `updated_at = CURRENT_TIMESTAMP` on every row update; row-update helpers
  take the current clock `now : Nat` and stamp `updatedAt`.
* Python float arithmetic on progress lines is idealised as exact rational
  (`ℚ`) arithmetic; the numbers appearing in the claims are exactly
  representable, so no rounding questions arise.
* The JSON blob stored in `ffprobe_data` (written by the scanner as
  `json.dumps(data['format'])` and re-parsed by the processor) is modelled
  structurally as `FormatJson`; the `json.dumps`/`json.loads` round-trip is
  the identity.
* External effects (the ffmpeg child process, the model endpoint, probes)
  enter as parameters: the child's stderr lines and exit code, and the
  model-response function.
-/

/-! ## Values and rows -/

/-- A value bound to a SQL parameter (`?`): a TEXT, an INTEGER, a REAL
(Python float, idealised as `ℚ`), or a timestamp. -/
inductive SqlVal where
  | vs (s : String)
  | vi (n : Int)
  | vq (q : ℚ)
  | vt (t : Nat)
  deriving DecidableEq, Repr

/-- The subset of the ffprobe `format` JSON object the code reads:
`duration` (a numeric string in real JSON; the value reached after
`float(...)` is stored directly). -/
structure FormatJson where
  duration : Option ℚ
  deriving DecidableEq, Repr

/-- One row of the `videos` table (schema of `init_db`, backend/db.py).
`id` is the INTEGER PRIMARY KEY (rowid); nullable columns are `Option`. -/
structure Video where
  id : Nat
  filename : String
  filepath : String
  ffprobeData : Option FormatJson
  aiCommand : Option String
  originalSize : Option Int
  optimizedSize : Option Int
  estimatedSize : Option ℚ
  optimizedPath : Option String
  originalCodec : Option String
  newCodec : Option String
  status : String
  progress : Option String
  systemInfo : Option String
  createdAt : Nat
  updatedAt : Nat
  deriving DecidableEq, Repr

instance : Inhabited Video :=
  ⟨{ id := 0, filename := "", filepath := "", ffprobeData := none,
     aiCommand := none, originalSize := none, optimizedSize := none,
     estimatedSize := none, optimizedPath := none, originalCodec := none,
     newCodec := none, status := "pending", progress := none,
     systemInfo := none, createdAt := 0, updatedAt := 0 }⟩

/-- The embedded database: the `videos` rows in rowid order, the
`status_history` rows (video_id, status) in insertion order, the next
AUTOINCREMENT id, and whether the `status_history` table exists. -/
structure Store where
  rows : List Video
  history : List (Nat × String)
  nextId : Nat
  hasHistory : Bool
  deriving DecidableEq, Repr

/-- Errors surfaced by the store layer (`DatabaseError` in
backend/db_operations.py wraps every `sqlite3.Error`). -/
inductive DBErr where
  | malformedSql
  | noSuchTable
  | badParams
  deriving DecidableEq, Repr

/-- Errors surfaced by the HTTP routes (backend/routes.py). -/
inductive HErr where
  | badRequest
  | notFound
  | serverError
  deriving DecidableEq, Repr

/-- The filesystem: (absolute path, size in bytes) for each existing file. -/
abbrev Fs : Type := List (String × Int)

/-- Model of `os.path.exists` plus `Path.stat().st_size`: the size of the
file at `p`, if present. -/
def fsLookup (fs : Fs) (p : String) : Option Int :=
  match fs.find? (fun e => e.1 == p) with
  | some e => some e.2
  | none => none

/-- Model of `os.remove p`. -/
def fsRemove (fs : Fs) (p : String) : Fs :=
  List.filter (fun e => ¬ e.1 == p) fs

/-- Model of `shutil.move src dst` (a rename): the file vanishes from
`src` and appears at `dst` with the same size. -/
def fsMove (fs : Fs) (src dst : String) : Fs :=
  match fsLookup fs src with
  | none => fs
  | some sz => (fsRemove (fsRemove fs src) dst) ++ [(dst, sz)]

/-! ## Python string helpers

The scanner, processor and synthesizer manipulate strings with `str.strip`,
`str.split`, `re.search` over fixed patterns, `Path.suffix`, `Path.name`
and `str.lower`.  These are implemented here over `List Char`, faithful to
the Python semantics on the character classes involved (ASCII). -/

/-- Python `str` whitespace (also regex whitespace class over ASCII). -/
def pyWs (c : Char) : Bool :=
  c = ' ' ∨ c = '\t' ∨ c = '\n' ∨ c = '\r' ∨ c = '\x0b' ∨ c = '\x0c'

def dropLeadWsL (cs : List Char) : List Char :=
  cs.dropWhile pyWs

def dropTrailWsL (cs : List Char) : List Char :=
  (cs.reverse.dropWhile pyWs).reverse

/-- Python `str.strip()`. -/
def pyStrip (s : String) : String :=
  ⟨dropTrailWsL (dropLeadWsL s.toList)⟩

/-- Does `cs` start with the literal `pre`? -/
def startsWithL : List Char → List Char → Bool
  | _, [] => true
  | [], _ :: _ => false
  | c :: cs, p :: ps => c == p && startsWithL cs ps

/-- Python `sub in s` (also `re.search` of a literal): some position of
`cs` starts with `sub`. -/
def containsSubL : List Char → List Char → Bool
  | [], sub => startsWithL [] sub
  | c :: cs, sub => startsWithL (c :: cs) sub || containsSubL cs sub

def containsSub (s sub : String) : Bool :=
  containsSubL s.toList sub.toList

/-- Split on every character satisfying `p` (the semantics of
`String.split`), keeping empty pieces. -/
def splitByL (p : Char → Bool) : List Char → List (List Char)
  | [] => [[]]
  | c :: cs =>
    let r := splitByL p cs
    if p c then [] :: r
    else
      match r with
      | t :: ts => (c :: t) :: ts
      | [] => [[c]]

/-- Python `str.split()` with no argument (split on runs of whitespace,
dropping empties). -/
def pySplitWs (s : String) : List String :=
  ((splitByL pyWs s.toList).filter (fun t => t ≠ [])).map
    (fun t => (⟨t⟩ : String))

/-- Python `str.lower()` (ASCII). -/
def pyLower (s : String) : String :=
  ⟨s.toList.map Char.toLower⟩

/-- Model of `Path.name`: the part after the last `/`. -/
def basename (s : String) : String :=
  match (splitByL (fun c => c = '/') s.toList).getLast? with
  | some b => ⟨b⟩
  | none => s

/-- Model of `Path.suffix` (CPython: with `i` the index of the last dot in
the final component `name`, the suffix is `name[i:]` when `0 < i <
len(name) - 1`, else empty). -/
def pathSuffix (s : String) : String :=
  let name := (basename s).toList
  if name.contains '.' then
    let afterDot := (name.reverse.takeWhile (fun c => c ≠ '.')).length
    let i := name.length - afterDot - 1
    if 0 < i ∧ i < name.length - 1 then ⟨name.drop i⟩ else ""
  else ""

/-! ## The mini SQL interpreter

`workers/processor.py` keeps its statements in the `SQL_QUERIES` dict and
`db_operations.update_video_status` builds one from `**kwargs` with an
f-string.  These statement *strings* are embedded verbatim and executed
through a small parser for
`UPDATE videos SET col = expr, ... WHERE id = ?` /
`... WHERE id IN (?, ...)`, so that a malformed statement fails exactly as
`sqlite3` would (raising, wrapped as `DatabaseError`). -/

inductive SqlExpr where
  | param
  | lit (s : String)
  | now
  deriving DecidableEq, Repr

inductive SqlWhere where
  | byIdEq
  | byIdIn (n : Nat)
  deriving DecidableEq, Repr

/-- Is the character a single-character SQL token? -/
def isSqlPunct (c : Char) : Bool :=
  c = ',' ∨ c = '(' ∨ c = ')'

/-- Tokenizer scanner: accumulates the current token (reversed);
whitespace separates tokens and punctuation stands alone. -/
def sqlTokensL : List Char → List Char → List String
  | [], acc => if acc.isEmpty then [] else [⟨acc.reverse⟩]
  | c :: cs, acc =>
    if pyWs c then
      (if acc.isEmpty then [] else [(⟨acc.reverse⟩ : String)]) ++ sqlTokensL cs []
    else if isSqlPunct c then
      (if acc.isEmpty then [] else [(⟨acc.reverse⟩ : String)])
        ++ [(⟨[c]⟩ : String)] ++ sqlTokensL cs []
    else sqlTokensL cs (c :: acc)

/-- Tokenize: commas and parens become tokens; whitespace separates. -/
def sqlTokens (q : String) : List String :=
  sqlTokensL q.toList []

/-- SQL keywords that cannot serve as an unquoted column name. -/
def sqlReserved : List String :=
  ["UPDATE", "SET", "WHERE", "INSERT", "INTO", "VALUES", "SELECT", "FROM",
   "IN", "AND", "OR", "NOT", "NULL"]

def isSqlIdentChar (c : Char) : Bool :=
  c.isAlphanum || c = '_'

/-- ASCII upper-casing over the character list. -/
def upperL (s : String) : String :=
  ⟨s.toList.map Char.toUpper⟩

def isSqlIdent (s : String) : Bool :=
  s ≠ "" && s.toList.all isSqlIdentChar && ¬ sqlReserved.contains (upperL s)

/-- A value position in a SET item: `?`, a quoted literal, or
`CURRENT_TIMESTAMP`. -/
def parseSqlVal (s : String) : Option SqlExpr :=
  if s = "?" then some .param
  else if s = "CURRENT_TIMESTAMP" then some .now
  else if s.length ≥ 2 ∧ s.toList.head? = some '\'' ∧ s.toList.getLast? = some '\'' then
    some (.lit ⟨(s.toList.drop 1).dropLast⟩)
  else none

/-- Parse the comma-separated assignment list after SET; returns the
assignments and the unconsumed tokens. -/
def parseAssignList : List String → Option (List (String × SqlExpr) × List String)
  | col :: "=" :: v :: "," :: rest =>
    if isSqlIdent col then
      match parseSqlVal v with
      | some e =>
        match parseAssignList rest with
        | some (l, r) => some ((col, e) :: l, r)
        | none => none
      | none => none
    else none
  | col :: "=" :: v :: rest =>
    if isSqlIdent col then
      match parseSqlVal v with
      | some e => some ([(col, e)], rest)
      | none => none
    else none
  | _ => none

/-- Parse `( ? , ? , ... )` counting the placeholders (the opening paren
was consumed by the caller). -/
def parseParamTuple : List String → Option Nat
  | ["?", ")"] => some 1
  | "?" :: "," :: rest =>
    match parseParamTuple rest with
    | some n => some (n + 1)
    | none => none
  | _ => none

/-- Parse a complete `UPDATE videos SET ... WHERE id = ?` or
`UPDATE videos SET ... WHERE id IN (?, ...)` statement. -/
def parseUpdateVideos (q : String) : Option (List (String × SqlExpr) × SqlWhere) :=
  match sqlTokens q with
  | "UPDATE" :: "videos" :: "SET" :: rest =>
    match parseAssignList rest with
    | some (assigns, ["WHERE", "id", "=", "?"]) => some (assigns, .byIdEq)
    | some (assigns, "WHERE" :: "id" :: "IN" :: "(" :: tuple) =>
      match parseParamTuple tuple with
      | some n => some (assigns, .byIdIn n)
      | none => none
    | _ => none
  | _ => none

/-- Assigning a value to one column of a row.  Which assignments are
meaningful depends only on the column name and the value's type, not on
the row, so the result is an optional row transformer. -/
def setColF (col : String) (x : SqlVal) : Option (Video → Video) :=
  match col, x with
  | "progress", .vs s => some (fun v => { v with progress := some s })
  | "status", .vs s => some (fun v => { v with status := s })
  | "estimated_size", .vq q => some (fun v => { v with estimatedSize := some q })
  | "estimated_size", .vi n => some (fun v => { v with estimatedSize := some (n : ℚ) })
  | "optimized_size", .vi n => some (fun v => { v with optimizedSize := some n })
  | "optimized_path", .vs s => some (fun v => { v with optimizedPath := some s })
  | "new_codec", .vs s => some (fun v => { v with newCodec := some s })
  | "ai_command", .vs s => some (fun v => { v with aiCommand := some s })
  | "system_info", .vs s => some (fun v => { v with systemInfo := some s })
  | "updated_at", .vt t => some (fun v => { v with updatedAt := t })
  | _, _ => none

/-- Fold the assignment list over the positional parameters, producing the
row transformer of the SET clause and the parameters left for the WHERE
clause. -/
def applyAssigns (now : Nat) :
    List (String × SqlExpr) → List SqlVal → Option ((Video → Video) × List SqlVal)
  | [], ps => some (id, ps)
  | (col, .param) :: rest, p :: ps =>
    match setColF col p with
    | some f =>
      match applyAssigns now rest ps with
      | some (g, qs) => some (g ∘ f, qs)
      | none => none
    | none => none
  | (col, .lit s) :: rest, ps =>
    match setColF col (.vs s) with
    | some f =>
      match applyAssigns now rest ps with
      | some (g, qs) => some (g ∘ f, qs)
      | none => none
    | none => none
  | (col, .now) :: rest, ps =>
    match setColF col (.vt now) with
    | some f =>
      match applyAssigns now rest ps with
      | some (g, qs) => some (g ∘ f, qs)
      | none => none
    | none => none
  | (_, .param) :: _, [] => none

/-- Read the trailing id parameters demanded by the WHERE clause. -/
def readWhereIds : SqlWhere → List SqlVal → Option (List Nat)
  | .byIdEq, [.vi k] => some [k.toNat]
  | .byIdIn n, ps =>
    if ps.length = n then
      ps.foldr (fun p acc =>
        match p, acc with
        | .vi k, some l => some (k.toNat :: l)
        | _, _ => none) (some [])
    else none
  | _, _ => none

/-- Update the rows whose id is in `ids`. -/
def updateById (ids : List Nat) (f : Video → Video) (l : List Video) : List Video :=
  l.map (fun v => if v.id ∈ ids then f v else v)

/-- Model of `cursor.execute(q, params)` for an UPDATE on `videos`
followed by `conn.commit()`: parse the statement, bind the parameters,
apply the row transformer to the matching rows, and fire the `updated_at`
trigger.  A malformed statement or parameter mismatch is a
`DatabaseError`. -/
def execUpdate (q : String) (ps : List SqlVal) (now : Nat) (st : Store) :
    Except DBErr Store :=
  match parseUpdateVideos q with
  | none => .error .malformedSql
  | some (assigns, w) =>
    match applyAssigns now assigns ps with
    | none => .error .badParams
    | some (f, rest) =>
      match readWhereIds w rest with
      | none => .error .badParams
      | some ids =>
        .ok { st with
              rows := updateById ids (fun v => { f v with updatedAt := now }) st.rows }

/-- Model of `execute_with_retry` (db_operations.py): the retry loop only
matters for transient "database is locked" errors, which the pure model
does not produce; a failed statement raises `DatabaseError`. -/
def execute_with_retry (q : String) (ps : List SqlVal) (now : Nat) (st : Store) :
    Except DBErr Store :=
  execUpdate q ps now st

/-- Model of the INSERT into `status_history` used by the transactional
repository operations: fails when the table does not exist (it is never
created by `init_db`). -/
def historyInsert (vid : Nat) (s : String) (st : Store) : Except DBErr Store :=
  if st.hasHistory then .ok { st with history := st.history ++ [(vid, s)] }
  else .error .noSuchTable

/-! ## Repository operations (backend/db_operations.py) -/

/-- Stable sort by `created_at` ascending (SQL ORDER BY). -/
def sortByCreatedAt (l : List Video) : List Video :=
  l.mergeSort (fun a b => decide (a.createdAt ≤ b.createdAt))

/-- SQLite LIMIT semantics: a negative limit means no limit. -/
def sqlLimit (n : Int) (l : List Video) : List Video :=
  if n < 0 then l else l.take n.toNat

/-- Model of `insert_video` (db_operations.py): one transaction inserting
the row (status defaults to `pending` per the schema) and the
`status_history` row; on any `sqlite3.Error` the transaction is rolled
back and `DatabaseError` is raised.  Returns `cursor.lastrowid`. -/
def insert_video (filepath filename : String) (metadata : Option FormatJson)
    (codec : Option String) (size : Option Int) (now : Nat) (st : Store) :
    Except DBErr (Nat × Store) :=
  let vid := st.nextId
  let row : Video :=
    { id := vid, filename := filename, filepath := filepath,
      ffprobeData := metadata, aiCommand := none, originalSize := size,
      optimizedSize := none, estimatedSize := none, optimizedPath := none,
      originalCodec := codec, newCodec := none, status := "pending",
      progress := none, systemInfo := none, createdAt := now, updatedAt := now }
  match historyInsert vid "pending"
      { st with rows := st.rows ++ [row], nextId := vid + 1 } with
  | .ok st2 => .ok (vid, st2)
  | .error e => .error e

/-- Model of `get_video_by_path`: fetchone on
`SELECT * FROM videos WHERE filepath = ?` (first row in rowid order). -/
def get_video_by_path (p : String) (st : Store) : Option Video :=
  st.rows.find? (fun v => v.filepath == p)

/-- Model of `get_videos_by_status`:
`SELECT * FROM videos WHERE status = ? ORDER BY created_at ASC`, with
`LIMIT ?` appended only when the Python `limit` argument is truthy
(so neither for `None` nor for `0`). -/
def get_videos_by_status (status : String) (limit : Option Int) (st : Store) :
    List Video :=
  let base := sortByCreatedAt (st.rows.filter (fun v => v.status == status))
  match limit with
  | some n => if n ≠ 0 then sqlLimit n base else base
  | none => base

/-- Model of `get_next_ready_video` (both the db_operations version and
the identical query in workers/processor.py): fetchone on
`SELECT * FROM videos WHERE status = 'ready' ORDER BY created_at ASC LIMIT 1`. -/
def get_next_ready_video (st : Store) : Option Video :=
  (sortByCreatedAt (st.rows.filter (fun v => v.status == "ready"))).head?

/-- Model of `update_video_command_and_system_info`: one transaction
setting `ai_command`, `system_info`, `status = 'ready'`,
`updated_at = CURRENT_TIMESTAMP` and inserting the history row; rolled
back entirely on error. -/
def update_video_command_and_system_info (vid : Nat) (aiCommand systemInfo : String)
    (now : Nat) (st : Store) : Except DBErr Store :=
  let upd : Video → Video := fun v =>
    { v with aiCommand := some aiCommand, systemInfo := some systemInfo,
             status := "ready", updatedAt := now }
  let st1 := { st with rows := updateById [vid] upd st.rows }
  historyInsert vid "ready" st1

/-- Python `", ".join(...)` over a list of fragments. -/
def joinSep (sep : String) : List String → String
  | [] => ""
  | [x] => x
  | x :: y :: rest => x ++ sep ++ joinSep sep (y :: rest)

/-- Sequential `status_history` inserts of one transaction. -/
def historyInsertMany (vids : List Nat) (s : String) (st : Store) :
    Except DBErr Store :=
  match vids with
  | [] => .ok st
  | k :: rest =>
    match historyInsert k s st with
    | .ok st1 => historyInsertMany rest s st1
    | .error e => .error e

/-- Model of `update_status_of_multiple_videos`: no-op on an empty id
list; otherwise one transaction running the f-string-built
`UPDATE videos SET status = ?, updated_at = CURRENT_TIMESTAMP WHERE id IN (...)`
and the per-id history inserts.  The status string is not validated. -/
def update_status_of_multiple_videos (vids : List Nat) (status : String)
    (now : Nat) (st : Store) : Except DBErr Store :=
  if vids.isEmpty then .ok st
  else
    let placeholders := joinSep ", " (vids.map (fun _ => "?"))
    let q := "UPDATE videos SET status = ?, updated_at = CURRENT_TIMESTAMP WHERE id IN ("
               ++ placeholders ++ ")"
    match execUpdate q ([SqlVal.vs status] ++ vids.map (fun k => SqlVal.vi (Int.ofNat k)))
        now st with
    | .error e => .error e
    | .ok st1 => historyInsertMany vids status st1

/-- Model of `update_video_status` (db_operations.py): builds
`UPDATE videos SET status = ?, <kwargs keys> = ?, updated_at = CURRENT_TIMESTAMP WHERE id = ?`
from the keyword arguments, executes it and inserts the history row in one
transaction.  The status string is not validated. -/
def update_video_status (vid : Nat) (status : String)
    (kwargs : List (String × SqlVal)) (now : Nat) (st : Store) :
    Except DBErr Store :=
  let fields := "status = ?" :: kwargs.map (fun kv => kv.1 ++ " = ?")
  let q := "UPDATE videos SET " ++ joinSep ", " fields
             ++ ", updated_at = CURRENT_TIMESTAMP WHERE id = ?"
  let ps := [SqlVal.vs status] ++ kwargs.map (fun kv => kv.2)
              ++ [SqlVal.vi (vid : Int)]
  match execUpdate q ps now st with
  | .error e => .error e
  | .ok st1 => historyInsert vid status st1

/-! ## HTTP routes (backend/routes.py) -/

/-- The literal `VALID_STATUSES` list of backend/routes.py. -/
def VALID_STATUSES : List String :=
  ["pending", "confirmed", "rejected", "ready", "optimized",
   "accepted", "skipped", "failed", "replaced"]

/-- The ten statuses the specification enumerates (section 4.2). -/
def specStatuses : List String :=
  ["pending", "confirmed", "re-confirmed", "ready", "optimized",
   "accepted", "replaced", "skipped", "rejected", "failed"]

/-- Model of the route `POST /api/videos/{video_id}/status`: reject a
status outside `VALID_STATUSES` with 400; otherwise run the UPDATE
(committed immediately), 404 when no row matched, then insert the history
row (a raised `sqlite3` error surfaces as a 500). -/
def route_update_video_status (vid : Nat) (status : String) (now : Nat)
    (st : Store) : Except HErr Store :=
  if status ∉ VALID_STATUSES then .error .badRequest
  else
    match execUpdate "UPDATE videos SET status = ? WHERE id = ?"
        [SqlVal.vs status, SqlVal.vi (vid : Int)] now st with
    | .error _ => .error .serverError
    | .ok st1 =>
      let rowsAffected := (st.rows.filter (fun v => v.id == vid)).length
      if rowsAffected = 0 then .error .notFound
      else
        match historyInsert vid status st1 with
        | .ok st2 => .ok st2
        | .error _ => .error .serverError

/-! ## Scanner (workers/scanner.py) -/

/-- The subset of one entry of the ffprobe `streams` array the scanner
reads: the `codec_name` key (absent key is `none`, whose access raises
`KeyError`). -/
structure StreamJson where
  codec_name : Option String
  deriving DecidableEq, Repr

/-- The subset of the ffprobe JSON document the scanner reads: the
`format` object and the `streams` array (a missing key is `none`). -/
structure ProbeData where
  format : Option FormatJson
  streams : Option (List StreamJson)
  deriving DecidableEq, Repr

/-- The `VIDEO_EXTENSIONS` allow-list of workers/scanner.py. -/
def VIDEO_EXTENSIONS : List String := [".mp4", ".mkv", ".avi", ".mov"]

/-- One file of the scan loop body of `scan_and_insert`: skip when the
path is already in the store, skip when the probe failed, extract
`format` / first-stream `codec_name` (defaulting to `"Unknown"` when the
streams array is absent or empty) / size, and insert; a `KeyError` (absent
`format` or `codec_name` key) or an insert `DatabaseError` is caught and
the file skipped. -/
def scanInsert (path : String) (fmt : FormatJson) (codec : String)
    (size : Int) (now : Nat) (st : Store) : Store :=
  match insert_video path (basename path) (some fmt) (some codec)
      (some size) now st with
  | .ok r => r.2
  | .error _ => st

def scanStep (probe : String → Option ProbeData) (now : Nat) (st : Store)
    (path : String) (size : Int) : Store :=
  if (get_video_by_path path st).isSome then st
  else
    match probe path with
    | none => st
    | some data =>
      match data.format with
      | none => st
      | some fmt =>
        match data.streams with
        | some (s0 :: _) =>
          match s0.codec_name with
          | none => st
          | some codec => scanInsert path fmt codec size now st
        | _ => scanInsert path fmt "Unknown" size now st

/-- Model of one Scanner tick (`scan_and_insert`): walk the files in
directory order, keep those whose lowercased `Path.suffix` is in the
allow-list, and run the per-file body on each. -/
def scan_and_insert (files : Fs) (probe : String → Option ProbeData)
    (now : Nat) (st : Store) : Store :=
  (files.filter
    (fun e => VIDEO_EXTENSIONS.contains (pyLower (pathSuffix e.1)))).foldl
    (fun acc e => scanStep probe now acc e.1 e.2) st

/-- The store produced by `init_db` (backend/db.py) on a fresh database:
the `videos` table exists and is empty; no `status_history` table is
created. -/
def initDbStore : Store :=
  { rows := [], history := [], nextId := 1, hasHistory := false }

/-! ## Approver (workers/approver.py) -/

/-- Model of `confirm_pending_videos`: when auto-confirm is on, select
up to `batchSize` ids with `SELECT id FROM videos WHERE status = 'pending'
LIMIT ?` (no ORDER BY: rowid order) and flip them to `confirmed` in one
bulk UPDATE (no history write; the trigger stamps `updated_at`). -/
def confirm_pending_videos (autoConfirmed : Bool) (batchSize : Nat)
    (now : Nat) (st : Store) : Store :=
  if ¬ autoConfirmed then st
  else
    let ids := ((st.rows.filter (fun v => v.status == "pending")).take batchSize).map
                 (fun v => v.id)
    if ids.isEmpty then st
    else
      let upd : Video → Video := fun v => { v with status := "confirmed", updatedAt := now }
      { st with rows := updateById ids upd st.rows }

/-- Model of `accept_optimized_videos`: when auto-accept is on, one
UPDATE flipping every `optimized` row to `accepted`. -/
def accept_optimized_videos (autoAccept : Bool) (now : Nat) (st : Store) : Store :=
  if ¬ autoAccept then st
  else
    let upd : Video → Video := fun v =>
      if v.status == "optimized" then { v with status := "accepted", updatedAt := now } else v
    { st with rows := st.rows.map upd }

/-- One Approver tick: `confirm_pending_videos()` then
`accept_optimized_videos()`. -/
def approverTick (autoConfirmed autoAccept : Bool) (batchSize : Nat)
    (now : Nat) (st : Store) : Store :=
  accept_optimized_videos autoAccept now
    (confirm_pending_videos autoConfirmed batchSize now st)

/-! ## Command Synthesizer (workers/prepare.py) -/

/-- The three-backtick code fence delimiter. -/
def codeFence : String := "\x60\x60\x60"

/-- First substitution of `extract_ffmpeg_command`: an anchored leading
code fence, optionally followed by `bash` (case-insensitively), then
greedy whitespace, is removed once. -/
def stripLeadFence (s : String) : String :=
  let cs := s.toList
  if startsWithL cs codeFence.toList then
    let r := cs.drop 3
    let r2 := if pyLower ⟨r.take 4⟩ = "bash" then r.drop 4 else r
    ⟨r2.dropWhile pyWs⟩
  else s

/-- Second substitution of `extract_ffmpeg_command`: trailing whitespace
followed by a code fence at the end of the string is removed. -/
def stripTrailFence (s : String) : String :=
  let cs := s.toList
  if startsWithL cs.reverse codeFence.toList then
    ⟨dropTrailWsL (cs.take (cs.length - 3))⟩
  else s

/-- After `ffmpeg`, the pattern demands one whitespace character and at
least one further character (DOTALL: any character). -/
def wsThenMore : List Char → Bool
  | w :: _ :: _ => pyWs w
  | _ => false

/-- Leftmost match of the search for `ffmpeg`, whitespace, then anything
to the end of the string (DOTALL, greedy): the tail of the string from
that occurrence of `ffmpeg`. -/
def searchFfmpegTail : List Char → Option (List Char)
  | [] => none
  | c :: cs =>
    if startsWithL (c :: cs) "ffmpeg".toList ∧ wsThenMore ((c :: cs).drop 6) then
      some (c :: cs)
    else searchFfmpegTail cs

/-- Model of `extract_ffmpeg_command` (workers/prepare.py): strip an
anchored leading code fence from the stripped text, strip a trailing
fence, keep everything from the first `ffmpeg`-plus-whitespace onward
(stripped), falling back to the whole stripped text. -/
def extract_ffmpeg_command (text : String) : String :=
  let t1 := stripLeadFence (pyStrip text)
  let t2 := stripTrailFence (pyStrip t1)
  match searchFfmpegTail t2.toList with
  | some tail => pyStrip ⟨tail⟩
  | none => pyStrip t2

/-- The per-video loop body shared by `process_batch` and
`re_process_batch`, folded over the fetched batch: a `None` or empty
model response is skipped; otherwise the normalized command is persisted
with `update_video_command_and_system_info`; a raised `DatabaseError`
propagates out of the batch (second component `true`). -/
def synthFold (respond : Video → Option String) (sysInfo : String) (now : Nat) :
    List Video → Store → Store × Bool
  | [], st => (st, false)
  | v :: rest, st =>
    match respond v with
    | none => synthFold respond sysInfo now rest st
    | some cmd0 =>
      if cmd0 = "" then synthFold respond sysInfo now rest st
      else
        match update_video_command_and_system_info v.id
            (extract_ffmpeg_command cmd0) sysInfo now st with
        | .ok st1 => synthFold respond sysInfo now rest st1
        | .error _ => (st, true)

/-- Model of `process_batch`: fetch up to `AI_BATCH_SIZE` rows in
`confirmed` and run the loop body on each; `respond` models `send_to_ai`
(the stripped response content, `none` on any caught exception). -/
def process_batch (respond : Video → Option String) (sysInfo : String)
    (aiBatchSize : Int) (now : Nat) (st : Store) : Store × Bool :=
  synthFold respond sysInfo now
    (get_videos_by_status "confirmed" (some aiBatchSize) st) st

/-- Model of `re_process_batch`: the same loop over `re-confirmed` rows
with `send_to_ai_again`. -/
def re_process_batch (respond2 : Video → Option String) (sysInfo : String)
    (aiBatchSize : Int) (now : Nat) (st : Store) : Store × Bool :=
  synthFold respond2 sysInfo now
    (get_videos_by_status "re-confirmed" (some aiBatchSize) st) st

/-- One Synthesizer tick (the body of `main`):
`process_batch()` then `re_process_batch()`; an exception raised from
`process_batch` is caught by the loop's handler and skips
`re_process_batch` for that tick. -/
def synthTick (respond respond2 : Video → Option String) (sysInfo : String)
    (aiBatchSize : Int) (now : Nat) (st : Store) : Store :=
  match process_batch respond sysInfo aiBatchSize now st with
  | (st1, true) => st1
  | (st1, false) => (re_process_batch respond2 sysInfo aiBatchSize now st1).1

/-! ## Transcoder (workers/processor.py) -/

/-- The relevant fields of the `Config` dataclass, at their env-default
values (`MIN_REDUCTION_RATIO` default `0.2` idealised as `1/5`). -/
structure ProcConfig where
  output_dir : String := "/video-output"
  min_reduction_ratio : ℚ := 1/5
  deriving DecidableEq, Repr

/-- The observable behaviour of the spawned child process: its stderr
lines and its exit code. -/
structure Child where
  stderrLines : List String
  exitCode : Int
  deriving DecidableEq, Repr

/-- The `SQL_QUERIES` dict of workers/processor.py, embedded verbatim. -/
def SQL_update_progress : String :=
  "\n        UPDATE videos SET progress = ? WHERE id = ?\n    "

def SQL_update_status_failed : String :=
  "\n        UPDATE videos SET status = 'failed' WHERE id = ?\n    "

def SQL_update_status_confirmed : String :=
  "\n        UPDATE videos SET status = 're-confirmed' WHERE id = ?\n    "

def SQL_update_estimated_size : String :=
  "\n        UPDATE videos SET estimated_size = ?, WHERE id = ?\n    "

def SQL_update_status_optimized : String :=
  "\n        UPDATE videos\n        SET optimized_size = ?, status = 'optimized',\n            optimized_path = ?, new_codec = ?, updated_at = CURRENT_TIMESTAMP\n        WHERE id = ?\n    "

/-- Greedy run of decimal digits: value, digit count, rest. -/
def digitRun (cs : List Char) : Option (Nat × Nat × List Char) :=
  let ds := cs.takeWhile Char.isDigit
  if ds.isEmpty then none
  else some (ds.foldl (fun a c => a * 10 + (c.toNat - 48)) 0, ds.length,
             cs.drop ds.length)

/-- Match digits, colon, digits, colon, digits, dot, digits at the head
(the group part of the first time pattern). -/
def matchHMS (cs : List Char) : Option (Nat × Nat × Nat × Nat) :=
  match digitRun cs with
  | some (h, _, ':' :: r1) =>
    match digitRun r1 with
    | some (m, _, ':' :: r2) =>
      match digitRun r2 with
      | some (s, _, '.' :: r3) =>
        match digitRun r3 with
        | some (ms, _, _) => some (h, m, s, ms)
        | none => none
      | _ => none
    | _ => none
  | _ => none

/-- Leftmost match of the pattern searching `time=` then H:M:S.cs. -/
def searchTimeHMS : List Char → Option (Nat × Nat × Nat × Nat)
  | [] => none
  | c :: cs =>
    if startsWithL (c :: cs) "time=".toList then
      match matchHMS ((c :: cs).drop 5) with
      | some r => some r
      | none => searchTimeHMS cs
    else searchTimeHMS cs

/-- Match digits, dot, digits at the head, as a rational (the fallback
seconds pattern; `float` of the matched text). -/
def matchSecFrac (cs : List Char) : Option ℚ :=
  match digitRun cs with
  | some (w, _, '.' :: r1) =>
    match digitRun r1 with
    | some (f, k, _) => some ((w : ℚ) + (f : ℚ) / ((10 : ℚ) ^ k))
    | none => none
  | _ => none

/-- Leftmost match of the fallback pattern searching `time=` then
digits-dot-digits. -/
def searchTimeFrac : List Char → Option ℚ
  | [] => none
  | c :: cs =>
    if startsWithL (c :: cs) "time=".toList then
      match matchSecFrac ((c :: cs).drop 5) with
      | some r => some r
      | none => searchTimeFrac cs
    else searchTimeFrac cs

/-- Match optional whitespace, digits, optional whitespace, `kB` at the
head (after `size=`). -/
def matchSizeKB (cs : List Char) : Option Nat :=
  match digitRun (cs.dropWhile pyWs) with
  | some (n, _, r1) =>
    if startsWithL (r1.dropWhile pyWs) "kB".toList then some n else none
  | none => none

/-- Leftmost match of the size pattern searching `size=`, whitespace,
digits, whitespace, `kB`. -/
def searchSizeKB : List Char → Option Nat
  | [] => none
  | c :: cs =>
    if startsWithL (c :: cs) "size=".toList then
      match matchSizeKB ((c :: cs).drop 5) with
      | some r => some r
      | none => searchSizeKB cs
    else searchSizeKB cs

/-- The parsed progress pair `{"time": ..., "size": ...}`. -/
structure Progress where
  time : ℚ
  size : ℚ
  deriving DecidableEq, Repr

/-- Model of `parse_ffmpeg_progress_line`: the first time pattern
(centiseconds divided by 100 regardless of digit count), else the
fractional-seconds fallback, else 0; sizes are kB times 1024, else 0. -/
def parse_ffmpeg_progress_line (line : String) : Progress :=
  let cs := line.toList
  let t : ℚ :=
    match searchTimeHMS cs with
    | some (h, m, s, ms) => (h : ℚ) * 3600 + (m : ℚ) * 60 + (s : ℚ) + (ms : ℚ) / 100
    | none =>
      match searchTimeFrac cs with
      | some q => q
      | none => 0
  let sz : ℚ :=
    match searchSizeKB cs with
    | some n => (n : ℚ) * 1024
    | none => 0
  { time := t, size := sz }

/-- The tuple returned by `execute_ffmpeg_command` /`run_ffmpeg`:
`(success, codec, status)`; every return site leaves the codec
component as the empty string. -/
abbrev RunResult := Bool × String × String

/-- The loop over the child's stderr lines in `execute_ffmpeg_command`.
Returns `some result` when the loop returned early (early abort, or a
raised `DatabaseError` from the estimated-size persist reaching the
outer handler), `none` when all lines were consumed; paired with the
store as updated so far.  `window` is the `deque(maxlen=5)` of
bitrates. -/
def execFFLines (cfg : ProcConfig) (vid : Nat) (totalDuration : ℚ)
    (origSize : Option Int) (now : Nat) :
    List String → List ℚ → Store → Option RunResult × Store
  | [], _, st => (none, st)
  | line :: rest, window, st =>
    if containsSub line "frame=" then
      let st1 := match execute_with_retry SQL_update_progress
                     [SqlVal.vs (pyStrip line), SqlVal.vi (vid : Int)] now st with
                 | .ok s => s
                 | .error _ => st
      let parsed := parse_ffmpeg_progress_line line
      if parsed.time > 10 ∧ totalDuration > 0 then
        let bitrate := parsed.size / parsed.time
        let window1 := (window ++ [bitrate]).drop ((window ++ [bitrate]).length - 5)
        let avg := window1.sum / (window1.length : ℚ)
        let est := avg * totalDuration
        match origSize with
        | none => (some (false, "", "error"), st1)
        | some o =>
          if o = 0 then (some (false, "", "error"), st1)
          else
            let ratio := 1 - est / (o : ℚ)
            match execute_with_retry SQL_update_estimated_size
                [SqlVal.vq est, SqlVal.vi (vid : Int)] now st1 with
            | .error _ => (some (false, "", "error"), st1)
            | .ok st2 =>
              if ratio < cfg.min_reduction_ratio then
                match execute_with_retry SQL_update_status_confirmed
                    [SqlVal.vi (vid : Int)] now st2 with
                | .error _ => (some (false, "", "error"), st2)
                | .ok st3 => (some (false, "", "ok"), st3)
              else execFFLines cfg vid totalDuration origSize now rest window1 st2
      else execFFLines cfg vid totalDuration origSize now rest window st1
    else execFFLines cfg vid totalDuration origSize now rest window st

/-- Model of `execute_ffmpeg_command`: run the line loop; if it did not
return early, wait for the child and map a nonzero exit to
`(False, "", "not ok")`, success to `(True, "", "ok")`. -/
def execute_ffmpeg_command (cfg : ProcConfig) (child : Child) (vid : Nat)
    (totalDuration : ℚ) (origSize : Option Int) (now : Nat) (st : Store) :
    RunResult × Store :=
  match execFFLines cfg vid totalDuration origSize now child.stderrLines [] st with
  | (some r, st1) => (r, st1)
  | (none, st1) =>
    if child.exitCode ≠ 0 then ((false, "", "not ok"), st1)
    else ((true, "", "ok"), st1)

/-- Replace the first occurrence of `tok` (Python `list.index` plus
assignment); `none` models the `ValueError` when the token is absent. -/
def replaceFirst : List String → String → String → Option (List String)
  | [], _, _ => none
  | t :: ts, tok, rep =>
    if t == tok then some (rep :: ts)
    else
      match replaceFirst ts tok rep with
      | some r => some (t :: r)
      | none => none

/-- The duration extraction of `run_ffmpeg`:
`float(ffprobe_data.get("duration", 0))`. -/
def durationOrZero (fd : FormatJson) : ℚ :=
  match fd.duration with
  | some d => d
  | none => 0

/-- The command construction of `run_ffmpeg`: split `ai_command` on
whitespace and substitute the two placeholder tokens; `none` models the
raised `ValueError` when a placeholder is missing. -/
def buildCommandList (cmdStr inputPath outputPath : String) :
    Option (List String) :=
  match replaceFirst (pySplitWs cmdStr) "input.mp4" inputPath with
  | none => none
  | some l1 => replaceFirst l1 "output.mp4" outputPath

/-- Model of `run_ffmpeg`: read `ai_command`, `original_size`,
`ffprobe_data` (a `None` blob raises in `json.loads` and is caught as
`(False, "", "error")`), take `duration` (default 0), build the command
(a missing placeholder raises, caught the same way), then execute. -/
def run_ffmpeg (cfg : ProcConfig) (child : Child) (now : Nat) (st : Store)
    (v : Video) (inputPath outputPath : String) : RunResult × Store :=
  match v.aiCommand with
  | none => ((false, "", "error"), st)
  | some cmdStr =>
    match v.ffprobeData with
    | none => ((false, "", "error"), st)
    | some fd =>
      match buildCommandList cmdStr inputPath outputPath with
      | none => ((false, "", "error"), st)
      | some _ => execute_ffmpeg_command cfg child v.id (durationOrZero fd)
                    v.originalSize now st

/-- Model of the processor's own `update_video_status`: one statement
setting `optimized_size`, `status = 'optimized'`, `optimized_path`,
`new_codec`, `updated_at`; `False` on `DatabaseError`. -/
def processor_update_video_status (vid : Nat) (optimizedSize : Int)
    (outputPath codec : String) (now : Nat) (st : Store) : Bool × Store :=
  match execute_with_retry SQL_update_status_optimized
      [SqlVal.vi optimizedSize, SqlVal.vs outputPath, SqlVal.vs codec,
       SqlVal.vi (vid : Int)] now st with
  | .ok st1 => (true, st1)
  | .error _ => (false, st)

/-- Best-effort failed-status write used on the error paths of
`process_video` (the statement is well-formed, so it succeeds in the
model whenever executed). -/
def markFailed (vid : Nat) (now : Nat) (st : Store) : Store :=
  match execute_with_retry SQL_update_status_failed [SqlVal.vi (vid : Int)] now st with
  | .ok st1 => st1
  | .error _ => st

/-- Best-effort re-confirmed-status write of the low-reduction branch of
`process_video`. -/
def markReconfirmed (vid : Nat) (now : Nat) (st : Store) : Store :=
  match execute_with_retry SQL_update_status_confirmed [SqlVal.vi (vid : Int)] now st with
  | .ok st1 => st1
  | .error _ => st

/-- Model of `process_video`: missing input is a failed transition;
otherwise run ffmpeg, and dispatch on `(success, status)`: success reads
the output size (a missing output raises `FileNotFoundError`, caught by
the handler which marks the row failed) and persists the optimized
fields; `status == "ok"` without success re-marks `re-confirmed`;
anything else is failed. -/
def process_video (cfg : ProcConfig) (fs : Fs) (child : Child) (now : Nat)
    (st : Store) (v : Video) : Bool × Store :=
  let inputPath := v.filepath
  let outputPath := cfg.output_dir ++ "/" ++ basename v.filepath
  if (fsLookup fs inputPath).isNone then
    (false, markFailed v.id now st)
  else
    match run_ffmpeg cfg child now st v inputPath outputPath with
    | ((success, codec, status), st1) =>
      if success then
        match fsLookup fs outputPath with
        | none => (false, markFailed v.id now st1)
        | some sz =>
          match processor_update_video_status v.id sz outputPath codec now st1 with
          | (true, st2) => (true, st2)
          | (false, st2) => (false, st2)
      else if status == "ok" then (false, markReconfirmed v.id now st1)
      else (false, markFailed v.id now st1)

/-- One Transcoder iteration of `main`: fetch the next `ready` row (by
`created_at`) and process it; no row means an idle tick. -/
def procTick (cfg : ProcConfig) (fs : Fs) (child : Child) (now : Nat)
    (st : Store) : Store :=
  match get_next_ready_video st with
  | none => st
  | some v => (process_video cfg fs child now st v).2

/-! ## Mover (workers/mover.py) -/

/-- Model of `update_record_status` (workers/mover.py): a plain UPDATE of
one row's status (no history write; the trigger stamps `updated_at`). -/
def update_record_status (vid : Nat) (status : String) (now : Nat) (st : Store) :
    Store :=
  let upd : Video → Video := fun v => { v with status := status, updatedAt := now }
  { st with rows := updateById [vid] upd st.rows }

/-- Model of `replace_files`: a missing original or optimized file marks
the row failed; otherwise remove the original, rename the optimized file
onto the original path, and mark the row replaced.  A `None`
`optimized_path` raises in `os.path.exists` and is caught by the handler,
which also marks the row failed. -/
def replace_files (originalPath : String) (optimizedPath : Option String)
    (vid : Nat) (now : Nat) (st : Store) (fs : Fs) : Bool × Store × Fs :=
  match optimizedPath with
  | none => (false, update_record_status vid "failed" now st, fs)
  | some opt =>
    if (fsLookup fs originalPath).isNone then
      (false, update_record_status vid "failed" now st, fs)
    else if (fsLookup fs opt).isNone then
      (false, update_record_status vid "failed" now st, fs)
    else
      let fs1 := fsRemove fs originalPath
      let fs2 := fsMove fs1 opt originalPath
      (true, update_record_status vid "replaced" now st, fs2)

/-- Model of the Mover's `process_batch`: fetch up to
`REPLACE_BATch_SIZE` rows in `accepted`
(`SELECT * FROM videos WHERE status = 'accepted' LIMIT ?`, rowid order)
and run `replace_files` on each. -/
def mover_process_batch (batch : Nat) (now : Nat) (st : Store) (fs : Fs) :
    Store × Fs :=
  let vids := (st.rows.filter (fun v => v.status == "accepted")).take batch
  vids.foldl
    (fun acc v => (replace_files v.filepath v.optimizedPath v.id now acc.1 acc.2).2)
    (st, fs)

/-- One Mover tick (the body of `main`): `process_batch()` and nothing
else. -/
def moverTick (batch : Nat) (now : Nat) (st : Store) (fs : Fs) : Store × Fs :=
  mover_process_batch batch now st fs

/-! ## Row-lookup lemmas

The workers hand off rows purely through the `status` column; the proofs
below track a single row through a tick via `List.find?` on its id. -/

/-- Fetching a row by id commutes with an id-preserving row map. -/
theorem find?_map_of_find? {l : List Video} {v : Video}
    (h : l.find? (fun u => u.id == v.id) = some v) (g : Video → Video)
    (hg : ∀ u, (g u).id = u.id) :
    (l.map g).find? (fun u => u.id == v.id) = some (g v) := by
  induction l with
  | nil => simp at h
  | cons u l ih =>
    by_cases hu : u.id = v.id
    · have hv : u = v := by
        have := List.find?_cons_of_pos (p := fun u => u.id == v.id) l
          (by simpa using hu)
        rw [this] at h
        exact Option.some_injective _ h
      subst hv
      simp only [List.map_cons]
      exact List.find?_cons_of_pos _ (by simpa using hg u)
    · have hrest : l.find? (fun u => u.id == v.id) = some v := by
        have := List.find?_cons_of_neg (p := fun u => u.id == v.id) l
          (by simpa using hu)
        rw [this] at h
        exact h
      simp only [List.map_cons]
      rw [List.find?_cons_of_neg _ (by simpa [hg u] using hu)]
      exact ih hrest

/-- In a list with pairwise-distinct ids, looking a member up by its id
finds that member. -/
theorem find?_id_of_mem {l : List Video} (hN : (l.map Video.id).Nodup)
    {v : Video} (hv : v ∈ l) :
    l.find? (fun u => u.id == v.id) = some v := by
  induction l with
  | nil => simp at hv
  | cons u l ih =>
    have hN2 : u.id ∉ l.map Video.id ∧ (l.map Video.id).Nodup := by
      rw [List.map_cons] at hN
      exact List.nodup_cons.mp hN
    rcases List.mem_cons.mp hv with h | h
    · subst h
      exact List.find?_cons_of_pos _ (by simp)
    · by_cases hu : u.id = v.id
      · exact absurd (hu ▸ List.mem_map_of_mem Video.id h) hN2.1
      · rw [List.find?_cons_of_neg _ (by simpa using hu)]
        exact ih hN2.2 h

/-- Two members of a list with pairwise-distinct ids that share an id are
equal. -/
theorem eq_of_mem_of_id_eq {l : List Video} (hN : (l.map Video.id).Nodup)
    {v w : Video} (hv : v ∈ l) (hw : w ∈ l) (h : w.id = v.id) : w = v :=
  List.inj_on_of_nodup_map hN hw hv h

/-- A bulk update by ids leaves a row alone when its id is not targeted. -/
theorem find?_updateById_of_not_mem {l : List Video} {v : Video}
    (h : l.find? (fun u => u.id == v.id) = some v) {ids : List Nat}
    (hv : v.id ∉ ids) (f : Video → Video) (hf : ∀ u, (f u).id = u.id) :
    (updateById ids f l).find? (fun u => u.id == v.id) = some v := by
  have hg : ∀ u : Video, ((if u.id ∈ ids then f u else u) : Video).id = u.id := by
    intro u
    split
    · exact hf u
    · rfl
  have := find?_map_of_find? h (fun u => if u.id ∈ ids then f u else u) hg
  simpa [updateById, hv] using this

/-- A bulk update by ids rewrites a row when its id is targeted. -/
theorem find?_updateById_of_mem {l : List Video} {v : Video}
    (h : l.find? (fun u => u.id == v.id) = some v) {ids : List Nat}
    (hv : v.id ∈ ids) (f : Video → Video) (hf : ∀ u, (f u).id = u.id) :
    (updateById ids f l).find? (fun u => u.id == v.id) = some (f v) := by
  have hg : ∀ u : Video, ((if u.id ∈ ids then f u else u) : Video).id = u.id := by
    intro u
    split
    · exact hf u
    · rfl
  have := find?_map_of_find? h (fun u => if u.id ∈ ids then f u else u) hg
  simpa [updateById, hv] using this

/-- A lookup that succeeds on a prefix succeeds on the extended list. -/
theorem find?_append_left_of_find? {l e : List Video} {v : Video}
    {p : Video → Bool} (h : l.find? p = some v) : (l ++ e).find? p = some v := by
  rw [List.find?_append, h]
  rfl

/-- An id-preserving bulk update preserves the id column. -/
theorem map_id_updateById {l : List Video} {ids : List Nat}
    (f : Video → Video) (hf : ∀ u, (f u).id = u.id) :
    (updateById ids f l).map Video.id = l.map Video.id := by
  unfold updateById
  rw [List.map_map]
  apply List.map_congr_left
  intro u _
  simp only [Function.comp]
  split
  · exact hf u
  · rfl

/-! ## Evaluation of the processor's fixed statements -/

/-- Evaluation of the `update_progress` statement. -/
theorem exec_update_progress_eval (s : String) (k : Nat) (now : Nat) (st : Store) :
    execute_with_retry SQL_update_progress [SqlVal.vs s, SqlVal.vi (k : Int)] now st =
      .ok { st with rows := updateById [k]
                      (fun v => { v with progress := some s, updatedAt := now })
                      st.rows } := rfl

/-- Evaluation of the `update_status_failed` statement. -/
theorem exec_update_failed_eval (k : Nat) (now : Nat) (st : Store) :
    execute_with_retry SQL_update_status_failed [SqlVal.vi (k : Int)] now st =
      .ok { st with rows := updateById [k]
                      (fun v => { v with status := "failed", updatedAt := now })
                      st.rows } := rfl

/-- Evaluation of the `update_status_confirmed` statement (which writes
`re-confirmed`). -/
theorem exec_update_reconfirmed_eval (k : Nat) (now : Nat) (st : Store) :
    execute_with_retry SQL_update_status_confirmed [SqlVal.vi (k : Int)] now st =
      .ok { st with rows := updateById [k]
                      (fun v => { v with status := "re-confirmed", updatedAt := now })
                      st.rows } := rfl

/-- Evaluation of the `update_status_optimized` statement. -/
theorem exec_update_optimized_eval (sz : Int) (out codec : String) (k : Nat)
    (now : Nat) (st : Store) :
    execute_with_retry SQL_update_status_optimized
        [SqlVal.vi sz, SqlVal.vs out, SqlVal.vs codec, SqlVal.vi (k : Int)] now st =
      .ok { st with rows := updateById [k]
                      (fun v =>
                        { v with optimizedSize := some sz, status := "optimized",
                                 optimizedPath := some out, newCodec := some codec,
                                 updatedAt := now })
                      st.rows } := rfl

/-- The `update_estimated_size` statement of `SQL_QUERIES` is malformed
(`SET estimated_size = ?, WHERE id = ?` — a dangling comma before WHERE),
so executing it always raises, whatever the parameters. -/
theorem exec_update_estimated_size_eval (ps : List SqlVal) (now : Nat) (st : Store) :
    execute_with_retry SQL_update_estimated_size ps now st = .error .malformedSql := rfl

/-! ## Membership facts about status-keyed selections -/

/-- A row fetched by `get_videos_by_status` is a row of the store with
that status. -/
theorem mem_of_mem_get_videos_by_status {s : String} {limit : Option Int}
    {st : Store} {w : Video} (h : w ∈ get_videos_by_status s limit st) :
    w ∈ st.rows ∧ w.status = s := by
  have hbase : w ∈ sortByCreatedAt (st.rows.filter (fun v => v.status == s)) := by
    unfold get_videos_by_status sqlLimit at h
    rcases limit with _ | n
    · exact h
    · dsimp only at h
      split at h
      · split at h
        · exact h
        · exact (List.take_sublist _ _).subset h
      · exact h
  have hfil : w ∈ st.rows.filter (fun v => v.status == s) := by
    unfold sortByCreatedAt at hbase
    exact List.mem_mergeSort.mp hbase
  exact ⟨List.mem_of_mem_filter hfil, by simpa using List.of_mem_filter hfil⟩

/-- The row fetched by `get_next_ready_video` is a `ready` row of the
store. -/
theorem mem_of_get_next_ready_video {st : Store} {w : Video}
    (h : get_next_ready_video st = some w) :
    w ∈ st.rows ∧ w.status = "ready" := by
  unfold get_next_ready_video at h
  have hmem : w ∈ sortByCreatedAt (st.rows.filter (fun v => v.status == "ready")) :=
    List.mem_of_mem_head? h
  have hfil : w ∈ st.rows.filter (fun v => v.status == "ready") := by
    unfold sortByCreatedAt at hmem
    exact List.mem_mergeSort.mp hmem
  exact ⟨List.mem_of_mem_filter hfil, by simpa using List.of_mem_filter hfil⟩

/-! ## Per-worker row-preservation lemmas

Every status write of every worker targets only rows it selected by a
non-terminal status; the lemmas below make that precise, one worker at a
time, by tracking an untargeted row through a tick. -/

/-- An insert attempt preserves every pre-existing row lookup (it either
appends one row or rolls back). -/
theorem scanInsert_find? (path : String) (fmt : FormatJson) (codec : String)
    (size : Int) (now : Nat) (st : Store) {p : Video → Bool} {v : Video}
    (h : st.rows.find? p = some v) :
    (scanInsert path fmt codec size now st).rows.find? p = some v := by
  unfold scanInsert insert_video historyInsert
  by_cases hh : st.hasHistory
  · simp only [hh, if_true]
    exact find?_append_left_of_find? h
  · simp only [hh, if_false]
    exact h

/-- The Scanner only appends rows: any `find?` that succeeded before a
scan step succeeds afterwards with the same row. -/
theorem scanStep_find? (probe : String → Option ProbeData) (now : Nat)
    (st : Store) (path : String) (size : Int) {p : Video → Bool} {v : Video}
    (h : st.rows.find? p = some v) :
    (scanStep probe now st path size).rows.find? p = some v := by
  unfold scanStep
  split
  · exact h
  · split
    · exact h
    · split
      · exact h
      · split
        · split
          · exact h
          · exact scanInsert_find? _ _ _ _ _ _ h
        · exact scanInsert_find? _ _ _ _ _ _ h

/-- A full Scanner tick preserves every pre-existing row lookup. -/
theorem scan_and_insert_find? (files : Fs) (probe : String → Option ProbeData)
    (now : Nat) (st : Store) {p : Video → Bool} {v : Video}
    (h : st.rows.find? p = some v) :
    (scan_and_insert files probe now st).rows.find? p = some v := by
  unfold scan_and_insert
  generalize (files.filter
    (fun e => VIDEO_EXTENSIONS.contains (pyLower (pathSuffix e.1)))) = l
  induction l generalizing st with
  | nil => simpa using h
  | cons e rest ih =>
    simp only [List.foldl_cons]
    exact ih _ (scanStep_find? probe now st e.1 e.2 h)

/-- The Approver's confirm pass only rewrites rows it selected as
`pending`; any other row of a store with distinct ids is untouched. -/
theorem confirm_pending_find? (autoConfirmed : Bool) (batchSize : Nat)
    (now : Nat) (st : Store) {v : Video}
    (hN : (st.rows.map Video.id).Nodup) (hv : v ∈ st.rows)
    (hs : v.status ≠ "pending") :
    (confirm_pending_videos autoConfirmed batchSize now st).rows.find?
      (fun u => u.id == v.id) = some v := by
  have h := find?_id_of_mem hN hv
  unfold confirm_pending_videos
  split
  · exact h
  · dsimp only
    split
    · exact h
    · apply find?_updateById_of_not_mem h
      · intro hmem
        rcases List.mem_map.mp hmem with ⟨w, hw, hwid⟩
        have hw2 : w ∈ st.rows.filter (fun u => u.status == "pending") :=
          (List.take_sublist _ _).subset hw
        have hwp : w.status = "pending" := by simpa using List.of_mem_filter hw2
        have : w = v := eq_of_mem_of_id_eq hN hv (List.mem_of_mem_filter hw2) hwid
        exact hs (this ▸ hwp)
      · intro u
        rfl

/-- The Approver's accept pass only rewrites `optimized` rows. -/
theorem accept_optimized_find? (autoAccept : Bool) (now : Nat) (st : Store)
    {v : Video}
    (h : st.rows.find? (fun u => u.id == v.id) = some v)
    (hs : v.status ≠ "optimized") :
    (accept_optimized_videos autoAccept now st).rows.find?
      (fun u => u.id == v.id) = some v := by
  unfold accept_optimized_videos
  split
  · exact h
  · dsimp only
    have hg : ∀ u : Video,
        ((if u.status == "optimized"
          then { u with status := "accepted", updatedAt := now } else u) : Video).id
          = u.id := by
      intro u
      split
      · rfl
      · rfl
    have := find?_map_of_find? h _ hg
    simpa [hs] using this

/-- One Approver tick leaves every row alone whose status is neither
`pending` nor `optimized` (in particular every terminal row). -/
theorem approverTick_find? (autoConfirmed autoAccept : Bool) (batchSize : Nat)
    (now : Nat) (st : Store) {v : Video}
    (hN : (st.rows.map Video.id).Nodup) (hv : v ∈ st.rows)
    (hs1 : v.status ≠ "pending") (hs2 : v.status ≠ "optimized") :
    (approverTick autoConfirmed autoAccept batchSize now st).rows.find?
      (fun u => u.id == v.id) = some v := by
  unfold approverTick
  exact accept_optimized_find? autoAccept now _
    (confirm_pending_find? autoConfirmed batchSize now st hN hv hs1) hs2

/-- On success, `update_video_command_and_system_info` rewrites exactly
the row with the given id. -/
theorem ucsi_rows {vid : Nat} {cmd info : String} {now : Nat} {st st' : Store}
    (h : update_video_command_and_system_info vid cmd info now st = .ok st') :
    st'.rows = updateById [vid]
      (fun v => { v with aiCommand := some cmd, systemInfo := some info,
                         status := "ready", updatedAt := now }) st.rows := by
  unfold update_video_command_and_system_info historyInsert at h
  dsimp only at h
  split at h
  · cases h
    rfl
  · cases h

/-- The Synthesizer's batch fold only rewrites rows of the fetched batch. -/
theorem synthFold_find? (respond : Video → Option String) (sysInfo : String)
    (now : Nat) (vids : List Video) (st : Store) {v : Video}
    (hne : ∀ w ∈ vids, w.id ≠ v.id)
    (h : st.rows.find? (fun u => u.id == v.id) = some v) :
    (synthFold respond sysInfo now vids st).1.rows.find?
      (fun u => u.id == v.id) = some v := by
  induction vids generalizing st with
  | nil => simpa [synthFold] using h
  | cons w rest ih =>
    have hw : w.id ≠ v.id := hne w (List.mem_cons_self w rest)
    have hrest : ∀ u ∈ rest, u.id ≠ v.id := fun u hu =>
      hne u (List.mem_cons_of_mem w hu)
    unfold synthFold
    split
    · exact ih _ hrest h
    · split
      · exact ih _ hrest h
      · split
        · rename_i st1 heq
          apply ih _ hrest
          rw [ucsi_rows heq]
          refine find?_updateById_of_not_mem h ?_ _ ?_
          · simpa using fun hcontra => hw hcontra.symm
          · intro u
            rfl
        · exact h

/-- The Synthesizer's batch fold never changes the id column. -/
theorem synthFold_map_id (respond : Video → Option String) (sysInfo : String)
    (now : Nat) (vids : List Video) (st : Store) :
    (synthFold respond sysInfo now vids st).1.rows.map Video.id
      = st.rows.map Video.id := by
  induction vids generalizing st with
  | nil => rfl
  | cons w rest ih =>
    unfold synthFold
    split
    · exact ih st
    · split
      · exact ih st
      · split
        · rename_i st1 heq
          rw [ih st1, ucsi_rows heq]
          exact map_id_updateById _ (fun u => rfl)
        · rfl

/-- One Synthesizer tick leaves every row alone whose status is neither
`confirmed` nor `re-confirmed`. -/
theorem synthTick_find? (respond respond2 : Video → Option String)
    (sysInfo : String) (aiBatchSize : Int) (now : Nat) (st : Store) {v : Video}
    (hN : (st.rows.map Video.id).Nodup) (hv : v ∈ st.rows)
    (hs1 : v.status ≠ "confirmed") (hs2 : v.status ≠ "re-confirmed") :
    (synthTick respond respond2 sysInfo aiBatchSize now st).rows.find?
      (fun u => u.id == v.id) = some v := by
  have h0 := find?_id_of_mem hN hv
  have hne1 : ∀ w ∈ get_videos_by_status "confirmed" (some aiBatchSize) st,
      w.id ≠ v.id := by
    intro w hw hwid
    obtain ⟨hwmem, hwst⟩ := mem_of_mem_get_videos_by_status hw
    have : w = v := eq_of_mem_of_id_eq hN hv hwmem hwid
    exact hs1 (this ▸ hwst)
  unfold synthTick process_batch
  have h1 := synthFold_find? respond sysInfo now _ st hne1 h0
  have hmap := synthFold_map_id respond sysInfo now
    (get_videos_by_status "confirmed" (some aiBatchSize) st) st
  set r := synthFold respond sysInfo now
    (get_videos_by_status "confirmed" (some aiBatchSize) st) st with hr
  rcases hb : r.2 with _ | _
  · have hN1 : (r.1.rows.map Video.id).Nodup := by
      rw [hmap]
      exact hN
    have hv1 : v ∈ r.1.rows := List.mem_of_find?_eq_some h1
    have hne2 : ∀ w ∈ get_videos_by_status "re-confirmed" (some aiBatchSize) r.1,
        w.id ≠ v.id := by
      intro w hw hwid
      obtain ⟨hwmem, hwst⟩ := mem_of_mem_get_videos_by_status hw
      have : w = v := eq_of_mem_of_id_eq hN1 hv1 hwmem hwid
      exact hs2 (this ▸ hwst)
    have h2 := synthFold_find? respond2 sysInfo now _ r.1 hne2 h1
    rcases r with ⟨st1, b⟩
    cases hb
    unfold re_process_batch
    exact h2
  · rcases r with ⟨st1, b⟩
    cases hb
    exact h1

/-- The Transcoder's progress loop only writes to the row it is
processing. -/
theorem execFFLines_find? (cfg : ProcConfig) (k : Nat) (dur : ℚ)
    (orig : Option Int) (now : Nat) (lines : List String) (window : List ℚ)
    (st : Store) {v : Video} (hk : k ≠ v.id)
    (h : st.rows.find? (fun u => u.id == v.id) = some v) :
    (execFFLines cfg k dur orig now lines window st).2.rows.find?
      (fun u => u.id == v.id) = some v := by
  have hnotin : v.id ∉ [k] := by
    intro hmem
    have hvk : v.id = k := by simpa using hmem
    exact hk hvk.symm
  induction lines generalizing window st with
  | nil => simpa [execFFLines] using h
  | cons line rest ih =>
    unfold execFFLines
    split
    · rw [exec_update_progress_eval]
      dsimp only
      have h1 := find?_updateById_of_not_mem h hnotin
        (fun u => { u with progress := some (pyStrip line), updatedAt := now })
        (fun u => rfl)
      split
      · rw [exec_update_estimated_size_eval]
        dsimp only
        split
        · exact h1
        · split
          · exact h1
          · exact h1
      · exact ih _ _ h1
    · exact ih _ _ h

/-- `execute_ffmpeg_command` only writes to the row it is processing. -/
theorem execute_ffmpeg_command_find? (cfg : ProcConfig) (child : Child)
    (k : Nat) (dur : ℚ) (orig : Option Int) (now : Nat) (st : Store)
    {v : Video} (hk : k ≠ v.id)
    (h : st.rows.find? (fun u => u.id == v.id) = some v) :
    (execute_ffmpeg_command cfg child k dur orig now st).2.rows.find?
      (fun u => u.id == v.id) = some v := by
  unfold execute_ffmpeg_command
  have hlines := execFFLines_find? cfg k dur orig now child.stderrLines [] st hk h
  rcases hres : execFFLines cfg k dur orig now child.stderrLines [] st with ⟨r, st1⟩
  rw [hres] at hlines
  rcases r with _ | r
  · dsimp only
    split
    · exact hlines
    · exact hlines
  · exact hlines

/-- `markFailed` does not touch other rows. -/
theorem markFailed_find? (k : Nat) (now : Nat) (st : Store) {v : Video}
    (hk : k ≠ v.id)
    (h : st.rows.find? (fun u => u.id == v.id) = some v) :
    (markFailed k now st).rows.find? (fun u => u.id == v.id) = some v := by
  have hnotin : v.id ∉ [k] := by
    intro hmem
    have hvk : v.id = k := by simpa using hmem
    exact hk hvk.symm
  unfold markFailed
  rw [exec_update_failed_eval]
  exact find?_updateById_of_not_mem h hnotin _ (fun u => rfl)

/-- `markReconfirmed` does not touch other rows. -/
theorem markReconfirmed_find? (k : Nat) (now : Nat) (st : Store) {v : Video}
    (hk : k ≠ v.id)
    (h : st.rows.find? (fun u => u.id == v.id) = some v) :
    (markReconfirmed k now st).rows.find? (fun u => u.id == v.id) = some v := by
  have hnotin : v.id ∉ [k] := by
    intro hmem
    have hvk : v.id = k := by simpa using hmem
    exact hk hvk.symm
  unfold markReconfirmed
  rw [exec_update_reconfirmed_eval]
  exact find?_updateById_of_not_mem h hnotin _ (fun u => rfl)

/-- `run_ffmpeg` only writes to the row it is processing. -/
theorem run_ffmpeg_find? (cfg : ProcConfig) (child : Child) (now : Nat)
    (st : Store) (v0 : Video) (ip op : String) {v : Video} (hk : v0.id ≠ v.id)
    (h : st.rows.find? (fun u => u.id == v.id) = some v) :
    (run_ffmpeg cfg child now st v0 ip op).2.rows.find?
      (fun u => u.id == v.id) = some v := by
  unfold run_ffmpeg
  split
  · exact h
  · split
    · exact h
    · split
      · exact h
      · exact execute_ffmpeg_command_find? cfg child v0.id _ _ now st hk h

/-- The `markFailed` fallback preserves the lookup through the
`processor_update_video_status` write as well. -/
theorem processor_update_video_status_find? (k : Nat) (sz : Int)
    (op codec : String) (now : Nat) (st : Store) {v : Video} (hk : k ≠ v.id)
    (h : st.rows.find? (fun u => u.id == v.id) = some v) :
    (processor_update_video_status k sz op codec now st).2.rows.find?
      (fun u => u.id == v.id) = some v := by
  have hnotin : v.id ∉ [k] := by
    intro hmem
    have hvk : v.id = k := by simpa using hmem
    exact hk hvk.symm
  unfold processor_update_video_status
  rw [exec_update_optimized_eval]
  dsimp only
  exact find?_updateById_of_not_mem h hnotin _ (fun u => rfl)

/-- `process_video` only writes to the row it is processing. -/
theorem process_video_find? (cfg : ProcConfig) (fs : Fs) (child : Child)
    (now : Nat) (st : Store) (v0 : Video) {v : Video} (hk : v0.id ≠ v.id)
    (h : st.rows.find? (fun u => u.id == v.id) = some v) :
    (process_video cfg fs child now st v0).2.rows.find?
      (fun u => u.id == v.id) = some v := by
  unfold process_video
  dsimp only
  split
  · exact markFailed_find? v0.id now st hk h
  · rcases hr : run_ffmpeg cfg child now st v0 v0.filepath
      (cfg.output_dir ++ "/" ++ basename v0.filepath) with ⟨⟨success, codec, status⟩, st1⟩
    have hst1 : st1.rows.find? (fun u => u.id == v.id) = some v := by
      have := run_ffmpeg_find? cfg child now st v0 v0.filepath
        (cfg.output_dir ++ "/" ++ basename v0.filepath) hk h
      rw [hr] at this
      exact this
    dsimp only
    split
    · split
      · exact markFailed_find? v0.id now st1 hk hst1
      · next sz hsz =>
        rcases hp : processor_update_video_status v0.id sz
            (cfg.output_dir ++ "/" ++ basename v0.filepath) codec now st1 with ⟨b, st2⟩
        have hst2 : st2.rows.find? (fun u => u.id == v.id) = some v := by
          have := processor_update_video_status_find? v0.id sz
            (cfg.output_dir ++ "/" ++ basename v0.filepath) codec now st1 hk hst1
          rw [hp] at this
          exact this
        rcases b with _ | _
        · exact hst2
        · exact hst2
    · split
      · exact markReconfirmed_find? v0.id now st1 hk hst1
      · exact markFailed_find? v0.id now st1 hk hst1

/-- One Transcoder tick leaves every row alone whose status is not
`ready`. -/
theorem procTick_find? (cfg : ProcConfig) (fs : Fs) (child : Child)
    (now : Nat) (st : Store) {v : Video}
    (hN : (st.rows.map Video.id).Nodup) (hv : v ∈ st.rows)
    (hs : v.status ≠ "ready") :
    (procTick cfg fs child now st).rows.find?
      (fun u => u.id == v.id) = some v := by
  have h := find?_id_of_mem hN hv
  unfold procTick
  split
  · exact h
  · rename_i v0 heq
    obtain ⟨hv0mem, hv0st⟩ := mem_of_get_next_ready_video heq
    have hk : v0.id ≠ v.id := by
      intro hid
      have : v0 = v := eq_of_mem_of_id_eq hN hv hv0mem hid
      exact hs (this ▸ hv0st)
    exact process_video_find? cfg fs child now st v0 hk h

/-- `replace_files` only writes to the row it is processing. -/
theorem replace_files_find? (op : String) (opt : Option String) (k : Nat)
    (now : Nat) (st : Store) (fs : Fs) {v : Video} (hk : k ≠ v.id)
    (h : st.rows.find? (fun u => u.id == v.id) = some v) :
    (replace_files op opt k now st fs).2.1.rows.find?
      (fun u => u.id == v.id) = some v := by
  have hnotin : v.id ∉ [k] := by
    intro hmem
    have hvk : v.id = k := by simpa using hmem
    exact hk hvk.symm
  have hupd : ∀ s : String, (update_record_status k s now st).rows.find?
      (fun u => u.id == v.id) = some v := by
    intro s
    unfold update_record_status
    exact find?_updateById_of_not_mem h hnotin _ (fun u => rfl)
  unfold replace_files
  split
  · exact hupd _
  · split
    · exact hupd _
    · split
      · exact hupd _
      · exact hupd _

/-- The Mover's batch fold only rewrites rows of the fetched batch. -/
theorem mover_fold_find? (now : Nat) (sel : List Video) :
    ∀ (st : Store) (fs : Fs) {v : Video}, (∀ w ∈ sel, w.id ≠ v.id) →
    st.rows.find? (fun u => u.id == v.id) = some v →
    ((sel.foldl
        (fun acc w => (replace_files w.filepath w.optimizedPath w.id now acc.1 acc.2).2)
        (st, fs)).1.rows.find? (fun u => u.id == v.id) = some v) := by
  induction sel with
  | nil =>
    intro st fs v _ h
    simpa using h
  | cons w rest ih =>
    intro st fs v hsel h
    have hw : w.id ≠ v.id := hsel w (List.mem_cons_self w rest)
    have hrest : ∀ u ∈ rest, u.id ≠ v.id := fun u hu =>
      hsel u (List.mem_cons_of_mem w hu)
    simp only [List.foldl_cons]
    exact ih _ _ hrest
      (replace_files_find? w.filepath w.optimizedPath w.id now st fs hw h)

/-- One Mover tick leaves every row alone whose status is not
`accepted`. -/
theorem moverTick_find? (batch : Nat) (now : Nat) (st : Store) (fs : Fs)
    {v : Video} (hN : (st.rows.map Video.id).Nodup) (hv : v ∈ st.rows)
    (hs : v.status ≠ "accepted") :
    (moverTick batch now st fs).1.rows.find?
      (fun u => u.id == v.id) = some v := by
  have h := find?_id_of_mem hN hv
  have hsel : ∀ w ∈ (st.rows.filter (fun u => u.status == "accepted")).take batch,
      w.id ≠ v.id := by
    intro w hw hwid
    have hw2 : w ∈ st.rows.filter (fun u => u.status == "accepted") :=
      (List.take_sublist _ _).subset hw
    have hwst : w.status = "accepted" := by simpa using List.of_mem_filter hw2
    have : w = v := eq_of_mem_of_id_eq hN hv (List.mem_of_mem_filter hw2) hwid
    exact hs (this ▸ hwst)
  unfold moverTick mover_process_batch
  dsimp only
  exact mover_fold_find? now _ st fs hsel h

/-! ## The claims -/

/-- C10: for every status `s`, `get_videos_by_status s (limit := 0)`
returns all rows with status `s`, ordered by `created_at` ascending —
the same result as passing no limit — because the `LIMIT` clause is only
appended when the Python `limit` argument is truthy, and `0` is falsy. -/
theorem claim_C10 : ∀ (st : Store) (s : String),
    get_videos_by_status s (some 0) st
      = sortByCreatedAt (st.rows.filter (fun v => v.status == s))
    ∧ get_videos_by_status s (some 0) st = get_videos_by_status s none st
    ∧ (get_videos_by_status s (some 0) st).length
      = (st.rows.filter (fun v => v.status == s)).length := by
  intro st s
  refine ⟨rfl, rfl, ?_⟩
  unfold get_videos_by_status sortByCreatedAt
  simp [List.length_mergeSort]

/-- Evaluation of the statement `update_video_status` builds for empty
kwargs. -/
theorem exec_update_status_nokwargs_eval (s : String) (k : Nat) (now : Nat)
    (st : Store) :
    execUpdate ("UPDATE videos SET " ++ joinSep ", " ["status = ?"]
        ++ ", updated_at = CURRENT_TIMESTAMP WHERE id = ?")
      [SqlVal.vs s, SqlVal.vi (k : Int)] now st =
      .ok { st with rows := updateById [k]
                      (fun v => { v with status := s, updatedAt := now })
                      st.rows } := rfl

/-- Evaluation of the statement `update_status_of_multiple_videos` builds
for two ids. -/
theorem exec_update_status_twoids_eval (s : String) (k₁ k₂ : Nat) (now : Nat)
    (st : Store) :
    execUpdate ("UPDATE videos SET status = ?, updated_at = CURRENT_TIMESTAMP WHERE id IN ("
        ++ joinSep ", " ["?", "?"] ++ ")")
      [SqlVal.vs s, SqlVal.vi (Int.ofNat k₁), SqlVal.vi (Int.ofNat k₂)] now st =
      .ok { st with rows := updateById [k₁, k₂]
                      (fun v => { v with status := s, updatedAt := now })
                      st.rows } := rfl

/-- The store used for the C3 counterexample: one `pending` row, with the
`status_history` table present. -/
def c3row : Video :=
  { id := 1, filename := "a.mp4", filepath := "/video-input/a.mp4",
    ffprobeData := none, aiCommand := none, originalSize := some 1000,
    optimizedSize := none, estimatedSize := none, optimizedPath := none,
    originalCodec := some "h264", newCodec := none, status := "pending",
    progress := none, systemInfo := none, createdAt := 0, updatedAt := 0 }

def c3store : Store :=
  { rows := [c3row], history := [], nextId := 2, hasHistory := true }

/-- C3 counterexample: the claim says a status write through the Job
Repository with the invalid status `"bogus"` is rejected and the row left
unchanged; in fact `update_video_status` performs no validation — the
call succeeds and the row's status becomes `"bogus"`. -/
theorem claim_C3_counterexample :
    update_video_status 1 "bogus" [] 5 c3store =
      .ok { rows := [{ c3row with status := "bogus", updatedAt := 5 }],
            history := [(1, "bogus")], nextId := 2, hasHistory := true } := by
  with_unfolding_all rfl

/-- C3 (amended): the repository operations `update_video_status` and
`update_status_of_multiple_videos` accept any status string without
validation and write it to the targeted rows; status validation exists
only at the HTTP route boundary, which rejects statuses outside its
`VALID_STATUSES` list with an invalid-argument (400) error and leaves the
store unchanged — and that list omits `re-confirmed`, one of the ten
spec statuses. -/
theorem claim_C3 :
    (∀ (st : Store) (k : Nat) (s : String) (now : Nat), st.hasHistory = true →
      update_video_status k s [] now st =
        .ok { st with
              rows := updateById [k]
                        (fun v => { v with status := s, updatedAt := now })
                        st.rows,
              history := st.history ++ [(k, s)] })
  ∧ (∀ (st : Store) (k₁ k₂ : Nat) (s : String) (now : Nat), st.hasHistory = true →
      update_status_of_multiple_videos [k₁, k₂] s now st =
        .ok { st with
              rows := updateById [k₁, k₂]
                        (fun v => { v with status := s, updatedAt := now })
                        st.rows,
              history := st.history ++ [(k₁, s), (k₂, s)] })
  ∧ (∀ (st : Store) (k : Nat) (s : String) (now : Nat), s ∉ VALID_STATUSES →
      route_update_video_status k s now st = .error .badRequest)
  ∧ "re-confirmed" ∉ VALID_STATUSES
  ∧ "re-confirmed" ∈ specStatuses := by
  refine ⟨?_, ?_, ?_, by decide, by decide⟩
  · intro st k s now hH
    unfold update_video_status
    simp only [List.map_nil, List.append_nil, List.singleton_append, List.cons_append,
      List.nil_append]
    rw [exec_update_status_nokwargs_eval]
    unfold historyInsert
    simp [hH]
  · intro st k₁ k₂ s now hH
    unfold update_status_of_multiple_videos
    rw [if_neg (by simp)]
    simp only [List.map_cons, List.map_nil, List.append_nil, List.singleton_append,
      List.cons_append, List.nil_append]
    rw [exec_update_status_twoids_eval]
    simp [historyInsertMany, historyInsert, hH, List.append_assoc]
  · intro st k s now hs
    unfold route_update_video_status
    rw [if_pos hs]

/-- C3 witness: the amended claim at concrete inputs. -/
theorem claim_C3_witness :
    update_video_status 3 "garbage" [] 7
        { rows := [], history := [], nextId := 1, hasHistory := true } =
      .ok { rows := updateById [3]
                      (fun v => { v with status := "garbage", updatedAt := 7 })
                      [],
            history := [] ++ [(3, "garbage")], nextId := 1, hasHistory := true }
    ∧ route_update_video_status 3 "garbage" 7 c3store = .error .badRequest :=
  ⟨claim_C3.1 { rows := [], history := [], nextId := 1, hasHistory := true }
      3 "garbage" 7 rfl,
   claim_C3.2.2.1 c3store 3 "garbage" 7 (by decide)⟩

/-- The store and filesystem for the C8 counterexample: one `skipped`
row whose `optimized_path` file exists. -/
def c8row : Video :=
  { id := 1, filename := "a.mp4", filepath := "/video-input/a.mp4",
    ffprobeData := none, aiCommand := some "ffmpeg -i input.mp4 output.mp4",
    originalSize := some 1000, optimizedSize := some 500,
    estimatedSize := none, optimizedPath := some "/video-output/a.mp4",
    originalCodec := some "h264", newCodec := some "",
    status := "skipped", progress := none, systemInfo := none,
    createdAt := 0, updatedAt := 0 }

def c8store : Store :=
  { rows := [c8row], history := [], nextId := 2, hasHistory := true }

def c8fs : Fs := [("/video-output/a.mp4", 500)]

set_option maxRecDepth 8000 in
/-- C8 counterexample: the claim says a Mover tick reads all `skipped`
rows and removes each one's `optimized_path` file; in fact the tick is
`process_batch()` alone, which touches only `accepted` rows — after one
tick the skipped row's output file still exists and nothing changed. -/
theorem claim_C8_counterexample :
    moverTick 5 3 c8store c8fs = (c8store, c8fs)
    ∧ fsLookup (moverTick 5 3 c8store c8fs).2 "/video-output/a.mp4" = some 500 := by
  with_unfolding_all decide

/-- C8 (amended): the Mover never reads `skipped` rows: a tick consists
of the accepted batch only, so every `skipped` row is left unchanged,
and when no row is `accepted` the tick changes neither the store nor the
filesystem (no cleanup of `optimized_path` files happens). -/
theorem claim_C8 :
    (∀ (batch now : Nat) (st : Store) (fs : Fs),
      st.rows.filter (fun v => v.status == "accepted") = [] →
      moverTick batch now st fs = (st, fs))
  ∧ (∀ (batch now : Nat) (st : Store) (fs : Fs) (v : Video),
      (st.rows.map Video.id).Nodup → v ∈ st.rows → v.status = "skipped" →
      (moverTick batch now st fs).1.rows.find? (fun u => u.id == v.id) = some v) := by
  constructor
  · intro batch now st fs hsel
    unfold moverTick mover_process_batch
    rw [hsel]
    simp
  · intro batch now st fs v hN hv hs
    apply moverTick_find? batch now st fs hN hv
    rw [hs]
    decide

/-- C8 witness: the amended claim at concrete inputs. -/
theorem claim_C8_witness :
    moverTick 5 3 c8store c8fs = (c8store, c8fs)
    ∧ (moverTick 5 3 c8store c8fs).1.rows.find? (fun u => u.id == c8row.id)
        = some c8row :=
  ⟨claim_C8.1 5 3 c8store c8fs (by decide),
   claim_C8.2 5 3 c8store c8fs c8row (by decide)
     (by decide) (by decide)⟩

/-- The filesystem and probe of the C1 scenario: one fresh file of size
1000 whose probe reports `format.duration = "60"` and a first video
stream with `codec_name = "h264"`. -/
def c1fs : Fs := [("/video-input/a.mp4", 1000)]

def c1probe : String → Option ProbeData := fun p =>
  if p = "/video-input/a.mp4" then
    some { format := some { duration := some 60 },
           streams := some [{ codec_name := some "h264" }] }
  else none

/-- C1 (code bug): against the schema created by `init_db` — which never
creates the `status_history` table — `insert_video` unconditionally
inserts into that table, raises, and rolls the whole transaction back,
so one Scanner tick over the claimed scenario inserts nothing and no id
is returned.  With the optional history table present the tick produces
exactly the row the claim describes, and the insert returns the assigned
id 1 atomically with the history row. -/
theorem claim_C1 :
    insert_video "/video-input/a.mp4" "a.mp4" (some { duration := some 60 })
        (some "h264") (some 1000) 0 initDbStore = .error .noSuchTable
  ∧ scan_and_insert c1fs c1probe 0 initDbStore = initDbStore
  ∧ (scan_and_insert c1fs c1probe 0 { initDbStore with hasHistory := true }).rows.map
        (fun v => (v.filename, v.originalSize, v.originalCodec, v.status))
      = [("a.mp4", some 1000, some "h264", "pending")]
  ∧ (insert_video "/video-input/a.mp4" "a.mp4" (some { duration := some 60 })
        (some "h264") (some 1000) 0
        { initDbStore with hasHistory := true }).toOption.map
          (fun r => (r.1, r.2.history))
      = some (1, [(1, "pending")]) := by
  refine ⟨by with_unfolding_all rfl, by with_unfolding_all rfl,
    by with_unfolding_all rfl, by with_unfolding_all rfl⟩

/-- The job of the C2 scenario: a `ready` row of original size
10 000 000 bytes and probed duration 100 s. -/
def c2row : Video :=
  { id := 1, filename := "a.mp4", filepath := "/video-input/a.mp4",
    ffprobeData := some { duration := some 100 },
    aiCommand := some "ffmpeg -i input.mp4 -c:v libx265 output.mp4",
    originalSize := some 10000000, optimizedSize := none,
    estimatedSize := none, optimizedPath := none,
    originalCodec := some "h264", newCodec := none, status := "ready",
    progress := none, systemInfo := none, createdAt := 0, updatedAt := 0 }

def c2store : Store :=
  { rows := [c2row], history := [], nextId := 2, hasHistory := true }

def c2fs : Fs := [("/video-input/a.mp4", 10000000)]

/-- The child of the C2 scenario: one progress line 12 s in with 150 kB
written (projected final size 150·1024/12·100 = 1 280 000 bytes, a
reduction ratio of 0.872 — far above the 0.2 threshold, so the claim
expects the job to continue past the persist). -/
def c2child : Child :=
  { stderrLines := ["frame=1 size= 150 kB time=00:00:12.00"], exitCode := 0 }

set_option maxRecDepth 8000 in
/-- C2 (code bug): the `update_estimated_size` statement of
`SQL_QUERIES` is malformed (`SET estimated_size = ?, WHERE id = ?`), so
on the first progress line past the 10-second gate the persist raises
`DatabaseError`, the loop returns `(False, "", "error")` and the job is
marked `failed`: `estimated_size` is never persisted and processing does
not continue, although the projected size equals the claimed formula and
the reduction ratio is above threshold.  (The in-memory estimate is also
a 5-sample rolling average of `size/time`, equal to the claimed
single-line formula only on the first qualifying line.) -/
theorem claim_C2 :
    parseUpdateVideos SQL_update_estimated_size = none
  ∧ (parse_ffmpeg_progress_line "frame=1 size= 150 kB time=00:00:12.00").size
      / (parse_ffmpeg_progress_line "frame=1 size= 150 kB time=00:00:12.00").time
      * 100 = 1280000
  ∧ ((1 : ℚ) - 1280000 / 10000000 ≥ ({} : ProcConfig).min_reduction_ratio)
  ∧ (procTick {} c2fs c2child 1 c2store).rows.map
        (fun v => (v.status, v.estimatedSize, v.progress))
      = [("failed", none, some "frame=1 size= 150 kB time=00:00:12.00")] := by
  refine ⟨rfl, by with_unfolding_all rfl, by with_unfolding_all decide,
    by with_unfolding_all rfl⟩

/-- The job of the C6 scenario: original size 1 000 000 bytes, duration
100 s; the child reports 1500 kB after 12 s, projecting 12 800 000
bytes — a reduction ratio of −11.8, far below the 0.2 threshold, so the
claim expects a graceful abort into `re-confirmed`. -/
def c6row : Video :=
  { id := 1, filename := "a.mp4", filepath := "/video-input/a.mp4",
    ffprobeData := some { duration := some 100 },
    aiCommand := some "ffmpeg -i input.mp4 -c:v libx265 output.mp4",
    originalSize := some 1000000, optimizedSize := none,
    estimatedSize := none, optimizedPath := none,
    originalCodec := some "h264", newCodec := none, status := "ready",
    progress := none, systemInfo := none, createdAt := 0, updatedAt := 0 }

def c6store : Store :=
  { rows := [c6row], history := [], nextId := 2, hasHistory := true }

def c6fs : Fs := [("/video-input/a.mp4", 1000000)]

def c6child : Child :=
  { stderrLines := ["frame=1 size= 1500 kB time=00:00:12.00"], exitCode := 0 }

set_option maxRecDepth 8000 in
/-- C6 (code bug): the low-reduction abort branch (lines 145-155 of
workers/processor.py) is unreachable — the malformed
`update_estimated_size` statement at line 138 raises before the
comparison runs, whenever the same `time > 10 ∧ duration > 0` gate that
guards the abort is satisfied.  On a line whose reduction ratio is far
below the threshold the job therefore ends `failed`, not `re-confirmed`,
and the early-abort/termination path never executes. -/
theorem claim_C6 :
    ((1 : ℚ) - 12800000 / 1000000 < ({} : ProcConfig).min_reduction_ratio)
  ∧ (procTick {} c6fs c6child 1 c6store).rows.map (fun v => v.status) = ["failed"]
  ∧ (procTick {} c6fs c6child 1 c6store).rows.filter
        (fun v => v.status == "re-confirmed") = []
  ∧ parseUpdateVideos SQL_update_estimated_size = none := by
  refine ⟨by with_unfolding_all decide, by with_unfolding_all rfl,
    by with_unfolding_all rfl, rfl⟩

/-- Modelled from the spec (section 4.6 post-exit): the row the
specification demands after a successful transcode — `optimized_path`,
`optimized_size` from disk, `status = optimized`, and `new_codec` equal
to the codec_name obtained by probing the output file.  The code
contains no such probe; this definition exists only to be compared with
the code's behaviour. -/
def spec_success_update (v : Video) (outputPath probedCodec : String)
    (sz : Int) (now : Nat) : Video :=
  { v with optimizedPath := some outputPath, newCodec := some probedCodec,
           optimizedSize := some sz, status := "optimized", updatedAt := now }

/-- The job and world of the C7 scenario: a `ready` row whose child
exits 0 without progress lines; the output file exists with size 777. -/
def c7row : Video :=
  { id := 1, filename := "a.mp4", filepath := "/video-input/a.mp4",
    ffprobeData := some { duration := some 100 },
    aiCommand := some "ffmpeg -i input.mp4 -c:v libx265 output.mp4",
    originalSize := some 1000000, optimizedSize := none,
    estimatedSize := none, optimizedPath := none,
    originalCodec := some "h264", newCodec := none, status := "ready",
    progress := none, systemInfo := none, createdAt := 0, updatedAt := 0 }

def c7store : Store :=
  { rows := [c7row], history := [], nextId := 2, hasHistory := true }

def c7fs : Fs :=
  [("/video-input/a.mp4", 1000000), ("/video-output/a.mp4", 777)]

def c7child : Child := { stderrLines := [], exitCode := 0 }

set_option maxRecDepth 8000 in
/-- C7 counterexample: on a successful exit the code stores the second
element of the run tuple as `new_codec` — and every return site of
`execute_ffmpeg_command` leaves that element the empty string; no probe
of the output file ever happens.  Probing the h265 output of this run
would report a non-empty codec name such as `"hevc"`, so the stored row
differs from the one the claim describes. -/
theorem claim_C7_counterexample :
    (procTick {} c7fs c7child 2 c7store).rows
      = [{ c7row with
           optimizedSize := some 777,
           optimizedPath := some "/video-output/a.mp4",
           newCodec := some "", status := "optimized", updatedAt := 2 }]
    ∧ (procTick {} c7fs c7child 2 c7store).rows
        ≠ [spec_success_update c7row "/video-output/a.mp4" "hevc" 777 2] := by
  have h1 : (procTick {} c7fs c7child 2 c7store).rows
      = [{ c7row with
           optimizedSize := some 777,
           optimizedPath := some "/video-output/a.mp4",
           newCodec := some "", status := "optimized", updatedAt := 2 }] := by
    with_unfolding_all rfl
  refine ⟨h1, ?_⟩
  rw [h1]
  intro hcontra
  have h2 := congrArg (List.map (fun v => v.newCodec)) hcontra
  simp [spec_success_update] at h2

/-- C7 (amended): when the child exits zero (and the progress loop did
not return early), the Transcoder reads the output's size on disk and in
one statement sets the row's `optimized_path` to the output path,
`optimized_size` to that size, `status` to `optimized` — and `new_codec`
to the empty string: the output file is never probed for its codec. -/
theorem claim_C7 : ∀ (cfg : ProcConfig) (fs : Fs) (child : Child) (now : Nat)
    (st : Store) (v : Video) (cmd : String) (fd : FormatJson)
    (cl : List String) (sz : Int),
    (st.rows.map Video.id).Nodup →
    get_next_ready_video st = some v →
    (fsLookup fs v.filepath).isNone = false →
    v.aiCommand = some cmd →
    v.ffprobeData = some fd →
    buildCommandList cmd v.filepath (cfg.output_dir ++ "/" ++ basename v.filepath)
      = some cl →
    execFFLines cfg v.id (durationOrZero fd) v.originalSize now
      child.stderrLines [] st = (none, st) →
    child.exitCode = 0 →
    fsLookup fs (cfg.output_dir ++ "/" ++ basename v.filepath) = some sz →
    (procTick cfg fs child now st).rows.find? (fun u => u.id == v.id)
      = some { v with
               optimizedSize := some sz, status := "optimized",
               optimizedPath := some (cfg.output_dir ++ "/" ++ basename v.filepath),
               newCodec := some "", updatedAt := now } := by
  intro cfg fs child now st v cmd fd cl sz hN hnext hin hcmd hfd hbuild hlines hexit hout
  obtain ⟨hvmem, _⟩ := mem_of_get_next_ready_video hnext
  have h0 := find?_id_of_mem hN hvmem
  unfold procTick
  rw [hnext]
  unfold process_video
  dsimp only
  rw [hin]
  have hrun : run_ffmpeg cfg child now st v v.filepath
      (cfg.output_dir ++ "/" ++ basename v.filepath) = ((true, "", "ok"), st) := by
    unfold run_ffmpeg
    rw [hcmd]
    dsimp only
    rw [hfd]
    dsimp only
    rw [hbuild]
    dsimp only
    unfold execute_ffmpeg_command
    rw [hlines]
    dsimp only
    rw [hexit]
    simp
  simp only [hin, Bool.false_eq_true, if_false, hrun, if_true]
  rw [hout]
  dsimp only
  unfold processor_update_video_status
  rw [exec_update_optimized_eval]
  dsimp only
  exact find?_updateById_of_mem h0 (by simp) _ (fun u => rfl)

/-- C7 witness: the amended claim at concrete inputs. -/
theorem claim_C7_witness :
    (procTick {} c7fs c7child 2 c7store).rows.find? (fun u => u.id == c7row.id)
      = some { c7row with
               optimizedSize := some 777, status := "optimized",
               optimizedPath := some (ProcConfig.output_dir {} ++ "/" ++ basename c7row.filepath),
               newCodec := some "", updatedAt := 2 } :=
  claim_C7 {} c7fs c7child 2 c7store c7row
    "ffmpeg -i input.mp4 -c:v libx265 output.mp4" { duration := some 100 }
    ["ffmpeg", "-i", "/video-input/a.mp4", "-c:v", "libx265", "/video-output/a.mp4"]
    777 (by decide) (by with_unfolding_all rfl) (by decide) rfl rfl
    (by with_unfolding_all rfl) rfl rfl (by decide)

/-- The job of the C4 counterexample: one `confirmed` row, history table
present, and a model response consisting of a bare code fence — truthy
before normalization, empty after it. -/
def c4row : Video :=
  { id := 1, filename := "a.mp4", filepath := "/video-input/a.mp4",
    ffprobeData := some { duration := some 60 }, aiCommand := none,
    originalSize := some 1000, optimizedSize := none, estimatedSize := none,
    optimizedPath := none, originalCodec := some "h264", newCodec := none,
    status := "confirmed", progress := none, systemInfo := none,
    createdAt := 0, updatedAt := 0 }

def c4store : Store :=
  { rows := [c4row], history := [], nextId := 2, hasHistory := true }

set_option maxRecDepth 8000 in
/-- C4 counterexample: the Synthesizer's emptiness check (`if command:`)
runs on the raw model response *before* normalization; the response
consisting of one code fence is non-empty, normalizes to the empty
string, and is persisted — leaving a `ready` row whose `ai_command` is
empty, violating the claimed invariant. -/
theorem claim_C4_counterexample :
    extract_ffmpeg_command codeFence = ""
    ∧ (synthTick (fun _ => some codeFence) (fun _ => none) "sysinfo" 3 4
          c4store).rows.map (fun v => (v.status, v.aiCommand))
        = [("ready", some "")] := by
  refine ⟨rfl, by with_unfolding_all rfl⟩

/-- C4 (amended): the Synthesizer skips a job only when the model call
failed or returned a string empty *before* normalization; any other
response is normalized with `extract_ffmpeg_command` and persisted with
`status = ready` — even when the normalized command is empty, as it is
for the bare-fence response — so `status = ready` does not imply a
non-empty `ai_command`. -/
theorem claim_C4 : ∀ (v : Video) (hist : List (Nat × String)) (nid : Nat)
    (respond2 : Video → Option String) (sysInfo resp : String)
    (aiB : Int) (now : Nat),
    v.status = "confirmed" → resp ≠ "" → aiB ≠ 0 →
    (synthTick (fun _ => some resp) respond2 sysInfo aiB now
        { rows := [v], history := hist, nextId := nid, hasHistory := true }).rows
      = [{ v with
           aiCommand := some (extract_ffmpeg_command resp),
           systemInfo := some sysInfo, status := "ready", updatedAt := now }]
    ∧ extract_ffmpeg_command codeFence = "" := by
  intro v hist nid respond2 sysInfo resp aiB now hconf hresp haiB
  refine ⟨?_, rfl⟩
  have hlim : sqlLimit aiB [{ v with
      aiCommand := some (extract_ffmpeg_command resp),
      systemInfo := some sysInfo, status := "ready", updatedAt := now }] =
      [{ v with
         aiCommand := some (extract_ffmpeg_command resp),
         systemInfo := some sysInfo, status := "ready", updatedAt := now }] := by
    unfold sqlLimit
    split
    · rfl
    · rename_i hpos
      have h1 : 1 ≤ aiB.toNat := by omega
      rcases hn : aiB.toNat with _ | m
      · omega
      · simp
  have hlimv : sqlLimit aiB [v] = [v] := by
    unfold sqlLimit
    split
    · rfl
    · rename_i hpos
      have h1 : 1 ≤ aiB.toNat := by omega
      rcases hn : aiB.toNat with _ | m
      · omega
      · simp
  have hsel : get_videos_by_status "confirmed" (some aiB)
      { rows := [v], history := hist, nextId := nid, hasHistory := true } = [v] := by
    unfold get_videos_by_status
    dsimp only
    rw [if_pos haiB]
    have hfil : List.filter (fun u => u.status == "confirmed") [v] = [v] := by
      simp [hconf]
    rw [hfil]
    unfold sortByCreatedAt
    rw [List.mergeSort_singleton]
    exact hlimv
  unfold synthTick process_batch
  rw [hsel]
  unfold synthFold
  dsimp only
  rw [if_neg hresp]
  have hupd : update_video_command_and_system_info v.id
      (extract_ffmpeg_command resp) sysInfo now
      { rows := [v], history := hist, nextId := nid, hasHistory := true } =
      .ok { rows := [{ v with
                       aiCommand := some (extract_ffmpeg_command resp),
                       systemInfo := some sysInfo, status := "ready",
                       updatedAt := now }],
            history := hist ++ [(v.id, "ready")], nextId := nid,
            hasHistory := true } := by
    unfold update_video_command_and_system_info historyInsert updateById
    simp
  rw [hupd]
  unfold synthFold
  dsimp only
  unfold re_process_batch
  have hsel2 : get_videos_by_status "re-confirmed" (some aiB)
      { rows := [{ v with
                   aiCommand := some (extract_ffmpeg_command resp),
                   systemInfo := some sysInfo, status := "ready",
                   updatedAt := now }],
        history := hist ++ [(v.id, "ready")], nextId := nid,
        hasHistory := true } = [] := by
    unfold get_videos_by_status
    dsimp only
    rw [if_pos haiB]
    have hfil2 : List.filter (fun u => u.status == "re-confirmed")
        [{ v with
           aiCommand := some (extract_ffmpeg_command resp),
           systemInfo := some sysInfo, status := "ready", updatedAt := now }]
        = [] := by
      simp
    rw [hfil2]
    unfold sortByCreatedAt
    rw [List.mergeSort_nil]
    unfold sqlLimit
    split
    · rfl
    · exact List.take_nil
  rw [hsel2]
  unfold synthFold
  rfl

/-- C4 witness: the amended claim at concrete inputs (a well-formed
response is persisted unchanged; the bare fence normalizes to empty). -/
theorem claim_C4_witness :
    (synthTick (fun _ => some "ffmpeg -i input.mp4 output.mp4") (fun _ => none)
        "sys" 3 9 { rows := [c4row], history := [], nextId := 2,
                    hasHistory := true }).rows
      = [{ c4row with
           aiCommand := some (extract_ffmpeg_command "ffmpeg -i input.mp4 output.mp4"),
           systemInfo := some "sys", status := "ready", updatedAt := 9 }]
    ∧ extract_ffmpeg_command codeFence = "" :=
  claim_C4 c4row [] 2 (fun _ => none) "sys" "ffmpeg -i input.mp4 output.mp4"
    3 9 rfl (by decide) (by decide)

/-- C5 (confirmed): with auto-confirm on and more than `batchSize`
`pending` rows, one Approver tick (auto-accept off, its default) flips
exactly the `batchSize` oldest pending rows to `confirmed` in one bulk
update and leaves everything else — in particular the remaining pending
rows — untouched.  The `SELECT id ... LIMIT ?` carries no ORDER BY, so
FIFO holds in the model's rowid order under the hypothesis that
`created_at` is strictly increasing in rowid order (which insertion
stamping guarantees). -/
theorem claim_C5 : ∀ (batchSize now : Nat) (st : Store),
    (st.rows.map Video.id).Nodup →
    List.Pairwise (fun a b => a.createdAt < b.createdAt) st.rows →
    batchSize < (st.rows.filter (fun v => v.status == "pending")).length →
    (∀ v ∈ (st.rows.filter (fun v => v.status == "pending")).take batchSize,
       (approverTick true false batchSize now st).rows.find?
           (fun u => u.id == v.id)
         = some { v with status := "confirmed", updatedAt := now })
  ∧ (∀ v ∈ (st.rows.filter (fun v => v.status == "pending")).drop batchSize,
       (approverTick true false batchSize now st).rows.find?
           (fun u => u.id == v.id) = some v)
  ∧ (∀ v ∈ st.rows, v.status ≠ "pending" →
       (approverTick true false batchSize now st).rows.find?
           (fun u => u.id == v.id) = some v)
  ∧ ((st.rows.filter (fun v => v.status == "pending")).take batchSize).length
      = batchSize
  ∧ (∀ u ∈ (st.rows.filter (fun v => v.status == "pending")).take batchSize,
     ∀ w ∈ (st.rows.filter (fun v => v.status == "pending")).drop batchSize,
       u.createdAt < w.createdAt) := by
  intro batchSize now st hN hSorted hLen
  have hpendN : ((st.rows.filter (fun v => v.status == "pending")).map Video.id).Nodup :=
    (hN.sublist (List.Sublist.map Video.id (List.filter_sublist st.rows)))
  have hpendSorted :
      List.Pairwise (fun a b => a.createdAt < b.createdAt)
        (st.rows.filter (fun v => v.status == "pending")) :=
    hSorted.sublist (List.filter_sublist st.rows)
  have hTakeDrop := List.take_append_drop batchSize
    (st.rows.filter (fun v => v.status == "pending"))
  have hCross : ∀ u ∈ (st.rows.filter (fun v => v.status == "pending")).take batchSize,
      ∀ w ∈ (st.rows.filter (fun v => v.status == "pending")).drop batchSize,
      u.createdAt < w.createdAt := by
    have := hTakeDrop ▸ hpendSorted
    exact (List.pairwise_append.mp this).2.2
  have hDisj : ∀ w ∈ (st.rows.filter (fun v => v.status == "pending")).drop batchSize,
      w.id ∉ ((st.rows.filter (fun v => v.status == "pending")).take batchSize).map
        (fun v => v.id) := by
    intro w hw hmem
    have hNapp : (((st.rows.filter (fun v => v.status == "pending")).take batchSize).map
          Video.id
        ++ ((st.rows.filter (fun v => v.status == "pending")).drop batchSize).map
          Video.id).Nodup := by
      rw [← List.map_append, hTakeDrop]
      exact hpendN
    have hdisj := (List.nodup_append.mp hNapp).2.2
    exact hdisj hmem (List.mem_map_of_mem Video.id hw)
  refine ⟨?_, ?_, ?_, ?_, hCross⟩
  · intro v hv
    have hvpend : v ∈ st.rows.filter (fun u => u.status == "pending") :=
      (List.take_sublist _ _).subset hv
    have hvmem : v ∈ st.rows := List.mem_of_mem_filter hvpend
    have h0 := find?_id_of_mem hN hvmem
    unfold approverTick
    have hconf : (confirm_pending_videos true batchSize now st).rows.find?
        (fun u => u.id == v.id)
        = some { v with status := "confirmed", updatedAt := now } := by
      unfold confirm_pending_videos
      rw [if_neg (by simp)]
      dsimp only
      have hidsne : ¬ (((st.rows.filter (fun u => u.status == "pending")).take
          batchSize).map (fun u => u.id)).isEmpty = true := by
        intro hempty
        have hvin := List.mem_map_of_mem (fun u : Video => u.id) hv
        rw [List.isEmpty_iff.mp hempty] at hvin
        simp at hvin
      rw [if_neg hidsne]
      exact find?_updateById_of_mem h0 (List.mem_map_of_mem _ hv) _ (fun u => rfl)
    unfold accept_optimized_videos
    rw [if_pos (by simp)]
    exact hconf
  · intro v hv
    have hvpend : v ∈ st.rows.filter (fun u => u.status == "pending") := by
      rw [← hTakeDrop]
      exact List.mem_append_right _ hv
    have hvmem : v ∈ st.rows := List.mem_of_mem_filter hvpend
    have hvst : v.status = "pending" := by
      simpa using List.of_mem_filter hvpend
    have h0 := find?_id_of_mem hN hvmem
    unfold approverTick
    have hconf : (confirm_pending_videos true batchSize now st).rows.find?
        (fun u => u.id == v.id) = some v := by
      unfold confirm_pending_videos
      rw [if_neg (by simp)]
      dsimp only
      split
      · exact h0
      · exact find?_updateById_of_not_mem h0 (hDisj v hv) _ (fun u => rfl)
    exact accept_optimized_find? false now _ hconf (by rw [hvst]; decide)
  · intro v hv hvst
    unfold approverTick
    have hconf := confirm_pending_find? true batchSize now st hN hv hvst
    unfold accept_optimized_videos
    rw [if_pos (by simp)]
    exact hconf
  · rw [List.length_take]
    omega

/-- Three pending rows in FIFO order for the C5 witness. -/
def w5a : Video :=
  { id := 1, filename := "a.mp4", filepath := "/video-input/a.mp4",
    ffprobeData := none, aiCommand := none, originalSize := some 10,
    optimizedSize := none, estimatedSize := none, optimizedPath := none,
    originalCodec := none, newCodec := none, status := "pending",
    progress := none, systemInfo := none, createdAt := 1, updatedAt := 1 }

def w5b : Video := { w5a with id := 2, filepath := "/video-input/b.mp4", createdAt := 2, updatedAt := 2 }

def w5c : Video := { w5a with id := 3, filepath := "/video-input/c.mp4", createdAt := 3, updatedAt := 3 }

def w5store : Store :=
  { rows := [w5a, w5b, w5c], history := [], nextId := 4, hasHistory := false }

/-- C5 witness: the theorem at a concrete store of three pending rows
with batch size two. -/
theorem claim_C5_witness :
    (∀ v ∈ (w5store.rows.filter (fun v => v.status == "pending")).take 2,
       (approverTick true false 2 9 w5store).rows.find?
           (fun u => u.id == v.id)
         = some { v with status := "confirmed", updatedAt := 9 })
  ∧ (∀ v ∈ (w5store.rows.filter (fun v => v.status == "pending")).drop 2,
       (approverTick true false 2 9 w5store).rows.find?
           (fun u => u.id == v.id) = some v)
  ∧ (∀ v ∈ w5store.rows, v.status ≠ "pending" →
       (approverTick true false 2 9 w5store).rows.find?
           (fun u => u.id == v.id) = some v)
  ∧ ((w5store.rows.filter (fun v => v.status == "pending")).take 2).length = 2
  ∧ (∀ u ∈ (w5store.rows.filter (fun v => v.status == "pending")).take 2,
     ∀ w ∈ (w5store.rows.filter (fun v => v.status == "pending")).drop 2,
       u.createdAt < w.createdAt) :=
  claim_C5 2 9 w5store (by decide) (by decide) (by decide)

/-- The three terminal statuses of the state machine. -/
def terminalStatuses : List String := ["replaced", "failed", "rejected"]

/-- C9 (confirmed): no worker tick changes a row whose status is
terminal.  Every status write of every worker targets only rows selected
by a non-terminal status (`pending`/`optimized` for the Approver,
`confirmed`/`re-confirmed` for the Synthesizer, `ready` for the
Transcoder, `accepted` for the Mover; the Scanner only inserts), so under
pairwise-distinct row ids a terminal row survives any tick of any worker
entirely unchanged. -/
theorem claim_C9 :
    (∀ (files : Fs) (probe : String → Option ProbeData) (now : Nat)
       (st : Store) (v : Video),
       (st.rows.map Video.id).Nodup → v ∈ st.rows →
       v.status ∈ terminalStatuses →
       (scan_and_insert files probe now st).rows.find?
           (fun u => u.id == v.id) = some v)
  ∧ (∀ (ac aa : Bool) (batchSize now : Nat) (st : Store) (v : Video),
       (st.rows.map Video.id).Nodup → v ∈ st.rows →
       v.status ∈ terminalStatuses →
       (approverTick ac aa batchSize now st).rows.find?
           (fun u => u.id == v.id) = some v)
  ∧ (∀ (respond respond2 : Video → Option String) (sysInfo : String)
       (aiBatchSize : Int) (now : Nat) (st : Store) (v : Video),
       (st.rows.map Video.id).Nodup → v ∈ st.rows →
       v.status ∈ terminalStatuses →
       (synthTick respond respond2 sysInfo aiBatchSize now st).rows.find?
           (fun u => u.id == v.id) = some v)
  ∧ (∀ (cfg : ProcConfig) (fs : Fs) (child : Child) (now : Nat)
       (st : Store) (v : Video),
       (st.rows.map Video.id).Nodup → v ∈ st.rows →
       v.status ∈ terminalStatuses →
       (procTick cfg fs child now st).rows.find?
           (fun u => u.id == v.id) = some v)
  ∧ (∀ (batch now : Nat) (st : Store) (fs : Fs) (v : Video),
       (st.rows.map Video.id).Nodup → v ∈ st.rows →
       v.status ∈ terminalStatuses →
       (moverTick batch now st fs).1.rows.find?
           (fun u => u.id == v.id) = some v) := by
  have hterm : ∀ (s t : String), s ∈ terminalStatuses → t ∉ terminalStatuses →
      s ≠ t := by
    intro s t hs ht heq
    exact ht (heq ▸ hs)
  refine ⟨?_, ?_, ?_, ?_, ?_⟩
  · intro files probe now st v hN hv _
    exact scan_and_insert_find? files probe now st (find?_id_of_mem hN hv)
  · intro ac aa batchSize now st v hN hv hterm0
    exact approverTick_find? ac aa batchSize now st hN hv
      (hterm _ _ hterm0 (by decide)) (hterm _ _ hterm0 (by decide))
  · intro respond respond2 sysInfo aiBatchSize now st v hN hv hterm0
    exact synthTick_find? respond respond2 sysInfo aiBatchSize now st hN hv
      (hterm _ _ hterm0 (by decide)) (hterm _ _ hterm0 (by decide))
  · intro cfg fs child now st v hN hv hterm0
    exact procTick_find? cfg fs child now st hN hv
      (hterm _ _ hterm0 (by decide))
  · intro batch now st fs v hN hv hterm0
    exact moverTick_find? batch now st fs hN hv
      (hterm _ _ hterm0 (by decide))

/-- A terminal (`replaced`) row for the C9 witness. -/
def w9row : Video :=
  { id := 1, filename := "a.mp4", filepath := "/video-input/a.mp4",
    ffprobeData := none, aiCommand := some "ffmpeg -i input.mp4 output.mp4",
    originalSize := some 1000, optimizedSize := some 300,
    estimatedSize := none, optimizedPath := some "/video-output/a.mp4",
    originalCodec := some "h264", newCodec := some "",
    status := "replaced", progress := none, systemInfo := none,
    createdAt := 0, updatedAt := 0 }

def w9store : Store :=
  { rows := [w9row], history := [], nextId := 2, hasHistory := true }

/-- C9 witness: one tick of each worker over a store holding a
`replaced` row leaves that row untouched. -/
theorem claim_C9_witness :
    (scan_and_insert [("/video-input/x.mp4", 5)] (fun _ => none) 3
        w9store).rows.find? (fun u => u.id == w9row.id) = some w9row
  ∧ (approverTick true true 10 3 w9store).rows.find?
        (fun u => u.id == w9row.id) = some w9row
  ∧ (synthTick (fun _ => none) (fun _ => none) "sys" 3 3 w9store).rows.find?
        (fun u => u.id == w9row.id) = some w9row
  ∧ (procTick {} [] { stderrLines := [], exitCode := 0 } 3 w9store).rows.find?
        (fun u => u.id == w9row.id) = some w9row
  ∧ (moverTick 5 3 w9store []).1.rows.find?
        (fun u => u.id == w9row.id) = some w9row :=
  ⟨claim_C9.1 [("/video-input/x.mp4", 5)] (fun _ => none) 3 w9store w9row
      (by decide) (by decide) (by decide),
   claim_C9.2.1 true true 10 3 w9store w9row (by decide) (by decide) (by decide),
   claim_C9.2.2.1 (fun _ => none) (fun _ => none) "sys" 3 3 w9store w9row
      (by decide) (by decide) (by decide),
   claim_C9.2.2.2.1 {} [] { stderrLines := [], exitCode := 0 } 3 w9store w9row
      (by decide) (by decide) (by decide),
   claim_C9.2.2.2.2 5 3 w9store [] w9row (by decide) (by decide) (by decide)⟩
